import Mathlib

/-!
# Build lifecycle and stream handlers of the CI server (`server/api`)

A shallow embedding of the HTTP handlers `DeleteBuild` (cancel), `PostApproval`
(approve), `PostDecline` (decline) and `PostBuild` (restart) of `build.go`, and of the
delivery callback and main loop of `EventStreamSSE` and `LogStreamSSE` of `stream.go`.

The handlers talk to a store, a work queue, a publish/subscribe bus, the forge and
the pipeline builder. The embedding threads a `World` through each handler: the
persisted build and process rows, plus the list of state-changing or outbound calls
the handler made, oldest first. Everything a collaborator answers (failures, the
compiled pipeline, the clock) is read from an `Env` record, so a handler is a total
function `Env → World → Response × World`.

Store reads (`GetBuildNumber`, `ProcList`, ...) leave the world untouched and are
not recorded in the call list; log output (`log.Error()`, `log.Debug()`) is not
modelled.
-/

namespace Woodpecker

/-! ## Data model -/

/-- Modelled from the spec: the status constants of package `model` are not part of
the source at hand; these are the enumerated states of the lifecycle state machine. -/
inductive Status where
  | Pending
  | Running
  | Success
  | Failure
  | Killed
  | Error
  | Blocked
  | Declined
  | Skipped
  deriving DecidableEq, Repr

/-- Modelled from the spec: rendering of a status under the `%s` verb; the constants'
string values are not part of the source at hand, the state names are used. -/
def Status.str : Status → String
  | .Pending => "Pending"
  | .Running => "Running"
  | .Success => "Success"
  | .Failure => "Failure"
  | .Killed => "Killed"
  | .Error => "Error"
  | .Blocked => "Blocked"
  | .Declined => "Declined"
  | .Skipped => "Skipped"

/-- Modelled from the spec: `model.Proc`, one node of a build's execution tree
(numeric ID, owning build, parent-process reference, name, status, exit metadata). -/
structure Proc where
  ID : Int
  BuildID : Int
  PPID : Int
  Name : String
  State : Status
  ExitCode : Int
  deriving DecidableEq, Repr

/-- Modelled from the spec: the value of `model.Tree procs`. The tree is a pure
function of the flat process list, so it is represented by the list it is built from. -/
structure ProcTree where
  flat : List Proc
  deriving DecidableEq, Repr

/-- Modelled from the spec: `model.Tree`, the hierarchical view of a flat list. -/
def Tree (procs : List Proc) : ProcTree := ⟨procs⟩

/-- Modelled from the spec: `model.Build`, one pipeline run. Timestamps are unix
seconds, `0` meaning unset; `Reviewer` is the approver or decliner identity. -/
structure Build where
  ID : Int
  Number : Int
  Parent : Int
  Status : Status
  Branch : String
  Event : String
  Deploy : String
  Enqueued : Int
  Started : Int
  Finished : Int
  Error : String
  Reviewer : String
  Procs : ProcTree
  deriving DecidableEq, Repr

/-- Modelled from the spec: `model.Config`, a stored pipeline config file. -/
structure Config where
  ID : Int
  Data : String
  Name : String
  deriving DecidableEq, Repr

/-- The `remote.FileMeta` literal built from a stored config. -/
structure FileMeta where
  Data : String
  Name : String
  deriving DecidableEq, Repr

/-- Modelled from the spec: a schedulable item returned by the pipeline builder,
carrying a process definition. -/
structure BuildItem where
  Proc : Proc
  deriving DecidableEq, Repr

/-- The `shared.ProcBuilder` literal as the handlers fill it in (the repository is
fixed per request and left out). `Envs` is a Go map, kept as an association list. -/
structure ProcBuilder where
  Curr : Build
  Last : Option Build
  Netrc : String
  Secs : List String
  Regs : List String
  Link : String
  Yamls : List FileMeta
  Envs : List (String × String)
  deriving DecidableEq, Repr

/-- The queue error passed to `ErrorAtOnce`; only `queue.ErrCancel` is used. -/
inductive QueueError where
  | ErrCancel
  deriving DecidableEq, Repr

/-- The event types handed to `publishToTopic`. -/
inductive EventType where
  | Enqueued
  | Cancelled
  deriving DecidableEq, Repr

/-- State-changing or outbound calls a handler makes, with their arguments. -/
inductive Call where
  | EvictAtOnce (ids : List String)
  | ErrorAtOnce (ids : List String) (err : QueueError)
  | UpdateProcToStatusSkipped (proc : Proc) (stopped : Int)
  | UpdateProcToStatusKilled (proc : Proc)
  | UpdateToStatusKilled (build : Build)
  | UpdateToStatusPending (build : Build) (login : String)
  | UpdateToStatusDeclined (build : Build) (login : String)
  | UpdateToStatusError (build : Build) (err : String)
  | publishToTopic (build : Build) (event : EventType)
  | RemoteStatus (build : Build) (uri : String) (proc : Option Proc)
  | Refresh
  | UpdateUser
  | CreateBuild (build : Build)
  | BuildConfigCreate (configID : Int) (buildID : Int)
  | Build (b : ProcBuilder)
  | ProcCreate (procs : ProcTree)
  | queueBuild (build : Build) (items : List BuildItem)
  deriving DecidableEq, Repr

/-- What the handler wrote to the gin context. -/
inductive Response where
  | String (code : Nat) (body : String)
  | JSON (code : Nat) (build : Build)
  | AbortWithError (code : Nat) (err : String)
  deriving DecidableEq, Repr

/-- The HTTP status code of a response. -/
def Response.code : Response → Nat
  | .String code _ => code
  | .JSON code _ => code
  | .AbortWithError code _ => code

/-- The persisted rows and the calls made so far (oldest first). -/
structure World where
  builds : List Build
  procs : List Proc
  calls : List Call
  deriving DecidableEq, Repr

/-- The four event kinds `model.EventPush`, `model.EventPull`, `model.EventTag`,
`model.EventDeploy`; their string values are not part of the source at hand and
are taken as parameters. -/
structure EventKinds where
  EventPush : String
  EventPull : String
  EventTag : String
  EventDeploy : String

/-- Request data and the answers of the collaborators. -/
structure Env where
  /-- The two results of `strconv.ParseInt` on the `number` path parameter. -/
  number : Int × Option String
  /-- Login of the session user. -/
  login : String
  /-- Full name of the session repository. -/
  repoFullName : String
  /-- `c.Request.URL.Query()`: key, first value, further values. -/
  query : List (String × String × List String)
  /-- `server.Config.Server.Host`. -/
  host : String
  /-- Successive readings of `time.Now().Unix()`. -/
  clock : Nat → Int
  /-- Values of the event-kind constants. -/
  kinds : EventKinds
  /-- Error returned by a state-changing collaborator call, if it fails. -/
  fault : Call → Option String
  GetBuildNumberErr : Int → Option String
  ProcListErr : Build → Option String
  GetUserErr : Option String
  ConfigsForBuild : Int → Except String (List Config)
  Netrc : Except String String
  /-- Value of `remote_.(remote.Refresher)`: `none` when the remote is no refresher,
  else the boolean `Refresh` returns. -/
  Refresher : Option Bool
  GetBuildLastBefore : String → Int → Option Build
  SecretListBuild : Build → List String
  RegistryList : List String
  /-- Value of `server.Config.Services.Environ`: `none` when nil, else the name and
  value pairs `EnvironList` returns. -/
  Environ : Option (List (String × String))
  /-- Result of `b.Build()` on a filled-in `shared.ProcBuilder`. -/
  ProcBuilderBuild : ProcBuilder → Except String (List BuildItem)
  SetBuildStepsOnBuild : Build → List BuildItem → Build

/-! ## Helpers -/

/-- Record a call. -/
def World.log (w : World) (c : Call) : World :=
  { w with calls := w.calls ++ [c] }

/-- The `fmt.Sprint` rendering of an integer ID. -/
def Sprint (n : Int) : String := toString n

/-- Assignment `m[k] = v` on a Go map kept as an association list. -/
def mapSet (m : List (String × String)) (k v : String) : List (String × String) :=
  (k, v) :: m.filter (fun kv => kv.1 ≠ k)

/-- Lookup `m[k]` on a Go map kept as an association list. -/
def mapGet (m : List (String × String)) (k : String) : Option String :=
  (m.find? (fun kv => kv.1 = k)).map (fun kv => kv.2)

/-- Gin `c.DefaultQuery(key, def)`: the first value of `key` when present. -/
def DefaultQuery (env : Env) (key : String) (dflt : String) : String :=
  match env.query.find? (fun e => e.1 = key) with
  | some e => e.2.1
  | none => dflt

/-- Modelled from the spec: `store.GetBuildNumber`, the build row with the given
number, a not-found error when absent. -/
def GetBuildNumber (env : Env) (w : World) (num : Int) : Except String Build :=
  match env.GetBuildNumberErr num with
  | some err => .error err
  | none =>
    match w.builds.find? (fun b => b.Number = num) with
    | some b => .ok b
    | none => .error "not found"

/-- Modelled from the spec: `store.ProcList`, the flat process list of a build. -/
def ProcList (env : Env) (w : World) (build : Build) : Except String (List Proc) :=
  match env.ProcListErr build with
  | some err => .error err
  | none => .ok (w.procs.filter (fun p => p.BuildID = build.ID))

/-- Row update of the process table, keyed by ID. -/
def World.putProc (w : World) (p : Proc) : World :=
  { w with procs := w.procs.map (fun q => if q.ID = p.ID then p else q) }

/-- Row update of the build table, keyed by ID. -/
def World.putBuild (w : World) (b : Build) : World :=
  { w with builds := w.builds.map (fun q => if q.ID = b.ID then b else q) }

/-- Modelled from the spec: `shared.UpdateProcToStatusSkipped`, persist status
`Skipped` for a process. -/
def UpdateProcToStatusSkipped (env : Env) (w : World) (proc : Proc) (stopped : Int) :
    Except String Proc × World :=
  let w1 := w.log (.UpdateProcToStatusSkipped proc stopped)
  match env.fault (.UpdateProcToStatusSkipped proc stopped) with
  | some err => (.error err, w1)
  | none => (.ok { proc with State := .Skipped }, w1.putProc { proc with State := .Skipped })

/-- Modelled from the spec: `shared.UpdateProcToStatusKilled`, persist status
`Killed` for a process. -/
def UpdateProcToStatusKilled (env : Env) (w : World) (proc : Proc) :
    Except String Proc × World :=
  let w1 := w.log (.UpdateProcToStatusKilled proc)
  match env.fault (.UpdateProcToStatusKilled proc) with
  | some err => (.error err, w1)
  | none => (.ok { proc with State := .Killed }, w1.putProc { proc with State := .Killed })

/-- Modelled from the spec: `shared.UpdateToStatusKilled`, persist build status
`Killed`. -/
def UpdateToStatusKilled (env : Env) (w : World) (build : Build) :
    Except String Build × World :=
  let w1 := w.log (.UpdateToStatusKilled build)
  match env.fault (.UpdateToStatusKilled build) with
  | some err => (.error err, w1)
  | none => (.ok { build with Status := .Killed }, w1.putBuild { build with Status := .Killed })

/-- Modelled from the spec: `shared.UpdateToStatusPending`, status to `Pending`,
record the approver, clear the error. -/
def UpdateToStatusPending (env : Env) (w : World) (build : Build) (login : String) :
    Except String Build × World :=
  let w1 := w.log (.UpdateToStatusPending build login)
  match env.fault (.UpdateToStatusPending build login) with
  | some err => (.error err, w1)
  | none =>
    let b1 := { build with Status := .Pending, Reviewer := login, Error := "" }
    (.ok b1, w1.putBuild b1)

/-- Modelled from the spec: `shared.UpdateToStatusDeclined`, status to `Declined`,
record the decliner. -/
def UpdateToStatusDeclined (env : Env) (w : World) (build : Build) (login : String) :
    Except String Build × World :=
  let w1 := w.log (.UpdateToStatusDeclined build login)
  match env.fault (.UpdateToStatusDeclined build login) with
  | some err => (.error err, w1)
  | none =>
    let b1 := { build with Status := .Declined, Reviewer := login }
    (.ok b1, w1.putBuild b1)

/-- Modelled from the spec: `shared.UpdateToStatusError`, mark the build `Error`
with the failure message. -/
def UpdateToStatusError (env : Env) (w : World) (build : Build) (err : String) :
    Except String Build × World :=
  let w1 := w.log (.UpdateToStatusError build err)
  match env.fault (.UpdateToStatusError build err) with
  | some e => (.error e, w1)
  | none =>
    let b1 := { build with Status := .Error, Error := err }
    (.ok b1, w1.putBuild b1)

/-- Modelled from the spec: `store.CreateBuild`, insert the row under a fresh ID and
a fresh number; the record is updated in place, so the stored row is returned. -/
def CreateBuild (env : Env) (w : World) (build : Build) : Except String Build × World :=
  let w1 := w.log (.CreateBuild build)
  match env.fault (.CreateBuild build) with
  | some err => (.error err, w1)
  | none =>
    let b1 := { build with
      ID := 1 + (w.builds.map (fun b => b.ID)).foldl max 0,
      Number := 1 + (w.builds.map (fun b => b.Number)).foldl max 0 }
    (.ok b1, { w1 with builds := w1.builds ++ [b1] })

/-- Modelled from the spec: `store.ProcCreate`, insert the processes of a tree. -/
def ProcCreate (env : Env) (w : World) (procs : ProcTree) : Option String × World :=
  let w1 := w.log (.ProcCreate procs)
  match env.fault (.ProcCreate procs) with
  | some err => (some err, w1)
  | none => (none, { w1 with procs := w1.procs ++ procs.flat })

/-- The commit-status link `fmt.Sprintf("%s/%s/%d", host, repo.FullName, build.Number)`. -/
def statusURI (env : Env) (build : Build) : String :=
  env.host ++ "/" ++ env.repoFullName ++ "/" ++ Sprint build.Number

/-! ## `DeleteBuild` -/

/-- The first loop of `DeleteBuild`: the pair `(procToCancel, procToEvict)`. -/
def classify (procs : List Proc) : List String × List String :=
  procs.foldl
    (fun acc proc =>
      if proc.PPID ≠ 0 then acc
      else
        let acc1 :=
          if proc.State = .Running then (acc.1 ++ [Sprint proc.ID], acc.2) else acc
        if proc.State = .Pending then (acc1.1, acc1.2 ++ [Sprint proc.ID]) else acc1)
    ([], [])

/-- One iteration of the second loop of `DeleteBuild`; update errors are only logged. -/
def cancelProc (env : Env) (w : World) (proc : Proc) : World :=
  if proc.State = .Pending then
    if proc.PPID ≠ 0 then (UpdateProcToStatusSkipped env w proc 0).2
    else (UpdateProcToStatusKilled env w proc).2
  else w

/-- The second loop of `DeleteBuild`: the status updates of the pending processes. -/
def cancelProcs (env : Env) (w : World) (procs : List Proc) : World :=
  procs.foldl (cancelProc env) w

/-- The three queue calls of `DeleteBuild`. -/
def cancelQueue (w : World) (procs : List Proc) : World :=
  ((w.log (.EvictAtOnce (classify procs).2)).log
    (.ErrorAtOnce (classify procs).2 .ErrCancel)).log
    (.ErrorAtOnce (classify procs).1 .ErrCancel)

/-- The cascade of `DeleteBuild`, from the queue calls on (lines 190 to 244). -/
def cancelCascade (env : Env) (w : World) (build : Build) (procs : List Proc) :
    Response × World :=
  let w1 := cancelQueue w procs
  let w2 := cancelProcs env w1 procs
  match UpdateToStatusKilled env w2 build with
  | (.error err, w3) => (.AbortWithError 500 err, w3)
  | (.ok killedBuild, w3) =>
    if build.Status = .Pending then
      match ProcList env w3 killedBuild with
      | .error err => (.AbortWithError 404 err, w3)
      | .ok procs1 =>
        (.String 204 "",
          w3.log (.publishToTopic { killedBuild with Procs := Tree procs1 } .Cancelled))
    else (.String 204 "", w3)

/-- The handler `DeleteBuild`: cancel a build. -/
def DeleteBuild (env : Env) (w : World) : Response × World :=
  match GetBuildNumber env w env.number.1 with
  | .error err => (.AbortWithError 404 err, w)
  | .ok build =>
    match ProcList env w build with
    | .error err => (.AbortWithError 404 err, w)
    | .ok procs =>
      if build.Status ≠ .Running ∧ build.Status ≠ .Pending then
        (.String 400 "Cannot cancel a non-running or non-pending build", w)
      else cancelCascade env w build procs

/-! ## `PostApproval` and `PostDecline` -/

/-- The `envs` map of `PostApproval`: the global environment, when configured. -/
def globalEnvs (env : Env) (m : List (String × String)) : List (String × String) :=
  match env.Environ with
  | some globals => globals.foldl (fun m g => mapSet m g.1 g.2) m
  | none => m

/-- The `yamls` list built from the stored configs. -/
def yamlsOf (configs : List Config) : List FileMeta :=
  configs.map (fun y => { Data := y.Data, Name := y.Name })

/-- The deferred commit-status loop of `PostApproval`. -/
def approvalStatus (env : Env) (w : World) (build : Build) (buildItems : List BuildItem) :
    World :=
  buildItems.foldl
    (fun w item =>
      w.log (.RemoteStatus build (statusURI env build)
        (if buildItems.length > 1 then some item.Proc else none)))
    w

/-- The part of `PostApproval` after the `200` response was written (lines 287 to 351). -/
def approvalDispatch (env : Env) (w : World) (build : Build) (configs : List Config)
    (netrc : String) : World :=
  let b : ProcBuilder :=
    { Curr := build
      Last := env.GetBuildLastBefore build.Branch build.ID
      Netrc := netrc
      Secs := env.SecretListBuild build
      Regs := env.RegistryList
      Link := env.host
      Yamls := yamlsOf configs
      Envs := globalEnvs env [] }
  let w1 := w.log (.Build b)
  match env.ProcBuilderBuild b with
  | .error err => (UpdateToStatusError env w1 build err).2
  | .ok buildItems =>
    let build1 := env.SetBuildStepsOnBuild b.Curr buildItems
    let w2 := (ProcCreate env w1 build1.Procs).2
    let w3 := w2.log (.publishToTopic build1 .Enqueued)
    let w4 := w3.log (.queueBuild build1 buildItems)
    approvalStatus env w4 build1 buildItems

/-- The handler `PostApproval`: approve a blocked build. -/
def PostApproval (env : Env) (w : World) : Response × World :=
  match GetBuildNumber env w env.number.1 with
  | .error err => (.AbortWithError 404 err, w)
  | .ok build =>
    if build.Status ≠ .Blocked then
      (.String 500 ("cannot decline a build with status " ++ build.Status.str), w)
    else
      match env.ConfigsForBuild build.ID with
      | .error err => (.AbortWithError 404 err, w)
      | .ok configs =>
        match env.Netrc with
        | .error err => (.String 500 ("failed to generate netrc file. " ++ err), w)
        | .ok netrc =>
          match UpdateToStatusPending env w build env.login with
          | (.error err, w1) => (.String 500 ("error updating build. " ++ err), w1)
          | (.ok build1, w1) =>
            (.JSON 200 build1, approvalDispatch env w1 build1 configs netrc)

/-- The handler `PostDecline`: decline a blocked build. -/
def PostDecline (env : Env) (w : World) : Response × World :=
  match GetBuildNumber env w env.number.1 with
  | .error err => (.AbortWithError 404 err, w)
  | .ok build =>
    if build.Status ≠ .Blocked then
      (.String 500 ("cannot decline a build with status " ++ build.Status.str), w)
    else
      match UpdateToStatusDeclined env w build env.login with
      | (.error err, w1) => (.String 500 ("error updating build. " ++ err), w1)
      | (.ok _, w1) =>
        (.JSON 200 build, w1.log (.RemoteStatus build (statusURI env build) none))

/-! ## `PostBuild` -/

/-- The function `persistBuildConfigs`: link every config to the build, stopping at
the first failure. -/
def persistBuildConfigs (env : Env) (w : World) (configs : List Config) (buildID : Int) :
    Option String × World :=
  match configs with
  | [] => (none, w)
  | conf :: rest =>
    match env.fault (.BuildConfigCreate conf.ID buildID) with
    | some err => (some err, w.log (.BuildConfigCreate conf.ID buildID))
    | none => persistBuildConfigs env (w.log (.BuildConfigCreate conf.ID buildID)) rest buildID

/-- The token refresh of `PostBuild` (lines 433 to 438). -/
def refreshToken (env : Env) (w : World) : World :=
  match env.Refresher with
  | some ok => if ok then (w.log .Refresh).log .UpdateUser else w.log .Refresh
  | none => w

/-- The event kind of the restarted build (lines 465 to 471). -/
def restartEvent (env : Env) (build : Build) : String :=
  if DefaultQuery env "event" build.Event = env.kinds.EventPush ∨
      DefaultQuery env "event" build.Event = env.kinds.EventPull ∨
      DefaultQuery env "event" build.Event = env.kinds.EventTag ∨
      DefaultQuery env "event" build.Event = env.kinds.EventDeploy then
    DefaultQuery env "event" build.Event
  else build.Event

/-- The record `PostBuild` hands to `CreateBuild` (lines 455 to 471). -/
def restartRecord (env : Env) (build : Build) (num : Int) : Build :=
  { build with
    ID := 0
    Number := 0
    Parent := num
    Status := .Pending
    Started := 0
    Finished := 0
    Enqueued := env.clock 0
    Error := ""
    Deploy := DefaultQuery env "deploy_to" build.Deploy
    Event := restartEvent env build }

/-- The query loop of `PostBuild` (lines 487 to 496): every parameter but the
reserved ones, with its first value. -/
def queryParams (env : Env) : List (String × String) :=
  env.query.foldl
    (fun m e =>
      if e.1 = "fork" ∨ e.1 = "event" ∨ e.1 = "deploy_to" then m else mapSet m e.1 e.2.1)
    []

/-- The `shared.ProcBuilder` literal of `PostBuild` (lines 500 to 531). -/
def restartBuilder (env : Env) (build : Build) (configs : List Config) (netrc : String) :
    ProcBuilder :=
  { Curr := build
    Last := env.GetBuildLastBefore build.Branch build.ID
    Netrc := netrc
    Secs := env.SecretListBuild build
    Regs := env.RegistryList
    Link := env.host
    Yamls := yamlsOf configs
    Envs := globalEnvs env (queryParams env) }

/-- The build as `PostBuild` marks it on a failed dispatch. -/
def markError (env : Env) (build : Build) (err : String) : Build :=
  { build with
    Status := .Error
    Started := env.clock 1
    Finished := env.clock 1
    Error := err }

/-- The part of `PostBuild` after the build configs were persisted (lines 486 to 556). -/
def restartDispatch (env : Env) (w : World) (build : Build) (configs : List Config)
    (netrc : String) : Response × World :=
  let b := restartBuilder env build configs netrc
  let w1 := w.log (.Build b)
  match env.ProcBuilderBuild b with
  | .error err => (.JSON 500 (markError env build err), w1)
  | .ok buildItems =>
    let build1 := env.SetBuildStepsOnBuild b.Curr buildItems
    match ProcCreate env w1 build1.Procs with
    | (some err, w2) => (.JSON 500 (markError env build1 err), w2)
    | (none, w2) =>
      (.JSON 202 build1,
        (w2.log (.publishToTopic build1 .Enqueued)).log (.queueBuild build1 buildItems))

/-- The part of `PostBuild` after the status guard (lines 430 to 556). -/
def restartAccepted (env : Env) (w : World) (build : Build) (num : Int) : Response × World :=
  let w1 := refreshToken env w
  match env.ConfigsForBuild build.ID with
  | .error err => (.AbortWithError 404 err, w1)
  | .ok configs =>
    match env.Netrc with
    | .error err => (.AbortWithError 500 err, w1)
    | .ok netrc =>
      match CreateBuild env w1 (restartRecord env build num) with
      | (.error err, w2) => (.String 500 err, w2)
      | (.ok build1, w2) =>
        match persistBuildConfigs env w2 configs build1.ID with
        | (some err, w3) => (.AbortWithError 500 err, w3)
        | (none, w3) => restartDispatch env w3 build1 configs netrc

/-- The handler `PostBuild`: restart a build. -/
def PostBuild (env : Env) (w : World) : Response × World :=
  match env.number.2 with
  | some err => (.AbortWithError 400 err, w)
  | none =>
    match env.GetUserErr with
    | some err => (.AbortWithError 500 err, w)
    | none =>
      match GetBuildNumber env w env.number.1 with
      | .error err => (.AbortWithError 404 err, w)
      | .ok build =>
        if build.Status = .Declined ∨ build.Status = .Blocked then
          (.String 500 ("cannot restart a build with status " ++ build.Status.str), w)
        else restartAccepted env w build env.number.1

/-! ## `EventStreamSSE` and `LogStreamSSE`

The two stream handlers run a pump task, which turns what the bus or the log tailer
delivers into sends on a channel, and a main loop, which is the only writer of frames.
The embedding keeps the two sequential parts: the delivery callback as a function of
the message and of whether the context is cancelled at that moment, and the main loop
as a fold over the events its `select` picks. The scheduling of the two tasks is not
modelled. -/

/-- A `pubsub.Message`: the payload and the label map (kept as an association list). -/
structure Message where
  Data : String
  Labels : List (String × String)
  deriving DecidableEq, Repr

/-- Lookup `m.Labels[k]` on a Go `map[string]string`: `""` when the key is absent. -/
def label (m : Message) (k : String) : String :=
  (mapGet m.Labels k).getD ""

/-- The `repo` map of `EventStreamSSE` (lines 59 to 66), kept as the list of its keys,
all of which map to `true`: the full names `RepoList` returns for the session user,
nothing when there is no user. -/
def repoMap (user : Option (List String)) : List String :=
  match user with
  | some repos => repos.foldl (fun m r => if r ∈ m then m else m ++ [r]) []
  | none => []

/-- The delivery callback of `EventStreamSSE` (lines 70 to 83): the payload it sends on
`eventc`, if any; `done` tells whether `ctx.Done()` is ready when the message arrives. -/
def eventCallback (repo : List String) (done : Bool) (m : Message) : Option String :=
  if label m "repo" ∈ repo ∨ label m "private" = "false" then
    if done then none else some m.Data
  else none

/-- A frame written to the client: the keep-alive comment `: ping`, a `data:` frame of
the event stream, or an `id:` and `data:` frame of the log stream. -/
inductive Frame where
  | ping
  | data (buf : String)
  | entry (id : Int) (buf : String)
  deriving DecidableEq, Repr

/-- The strings the handlers write for a frame. -/
def Frame.render : Frame → List String
  | .ping => [": ping\n\n"]
  | .data buf => ["data: ", buf, "\n\n"]
  | .entry id buf => ["id: " ++ toString id, "\n", "data: ", buf, "\n\n"]

/-- What the `select` of the main loop of `EventStreamSSE` picks: the close
notification, the cancelled context, the 30 second timer, or a receive on `eventc`
(`none` when the channel is closed). -/
inductive StreamEvent where
  | closeNotify
  | ctxDone
  | tick
  | recv (buf : Option String)
  deriving DecidableEq, Repr

/-- The main loop of `EventStreamSSE` (lines 85 to 101), from the frames written so far. -/
def eventLoop : List Frame → List StreamEvent → List Frame
  | out, [] => out
  | out, .closeNotify :: _ => out
  | out, .ctxDone :: _ => out
  | out, .tick :: evs => eventLoop (out ++ [.ping]) evs
  | out, .recv (some buf) :: evs => eventLoop (out ++ [.data buf]) evs
  | out, .recv none :: evs => eventLoop out evs

/-- The receives the main loop of `EventStreamSSE` sees when the given messages are
published, one after the other, while the context is not cancelled. -/
def deliver (repo : List String) (msgs : List Message) : List StreamEvent :=
  (msgs.filterMap (eventCallback repo false)).map (fun buf => .recv (some buf))

/-- The payload of a `data:` frame. -/
def Frame.dataOf : Frame → Option String
  | .data buf => some buf
  | _ => none

/-- What the `select` of the main loop of `LogStreamSSE` picks: the one hour timer, the
close notification, the cancelled context, the 30 second timer, or a receive on `logc`
(`none` when the channel is closed). -/
inductive LogEvent where
  | hour
  | closeNotify
  | ctxDone
  | tick
  | recv (buf : Option String)
  deriving DecidableEq, Repr

/-- Go `int` arithmetic: the 64-bit two's complement value of an integer. -/
def wrapInt (x : Int) : Int :=
  (x + 9223372036854775808) % 18446744073709551616 - 9223372036854775808

/-- The main loop of `LogStreamSSE` (lines 207 to 233), from the current `id` and the
frames written so far; the result is the final `id` and the frames. -/
def logLoop (last : Int) : Int → List Frame → List LogEvent → Int × List Frame
  | id, out, [] => (id, out)
  | id, out, .hour :: _ => (id, out)
  | id, out, .closeNotify :: _ => (id, out)
  | id, out, .ctxDone :: _ => (id, out)
  | id, out, .tick :: evs => logLoop last id (out ++ [.ping]) evs
  | id, out, .recv (some buf) :: evs =>
    logLoop last (wrapInt (id + 1)) (if id > last then out ++ [.entry id buf] else out) evs
  | id, out, .recv none :: evs => logLoop last id out evs

/-- The streaming part of `LogStreamSSE` (lines 196 to 233): `id` starts at 1 and
`last` is the parsed `Last-Event-ID` header. -/
def logStream (last : Int) (evs : List LogEvent) : Int × List Frame :=
  logLoop last 1 [] evs

/-- The entries the main loop of `LogStreamSSE` receives before it returns. -/
def received : List LogEvent → List String
  | [] => []
  | .hour :: _ => []
  | .closeNotify :: _ => []
  | .ctxDone :: _ => []
  | .tick :: evs => received evs
  | .recv (some buf) :: evs => buf :: received evs
  | .recv none :: evs => received evs

/-- The ID and payload of a log frame. -/
def Frame.entryOf : Frame → Option (Int × String)
  | .entry id buf => some (id, buf)
  | _ => none

/-- The entries numbered in the words of the spec: the first one gets `k`, the next
one `k + 1`, and so on. -/
def numbered (k : Int) : List String → List (Int × String)
  | [] => []
  | buf :: bufs => (k, buf) :: numbered (k + 1) bufs

/-- The `shared.ProcBuilder` literal of `PostApproval` (lines 311 to 321). -/
def approvalBuilder (env : Env) (build : Build) (configs : List Config) (netrc : String) :
    ProcBuilder :=
  { Curr := build
    Last := env.GetBuildLastBefore build.Branch build.ID
    Netrc := netrc
    Secs := env.SecretListBuild build
    Regs := env.RegistryList
    Link := env.host
    Yamls := yamlsOf configs
    Envs := globalEnvs env [] }

/-! ## Reading back a rendered ID -/

/-- Decimal value of a character list, most significant digit first. -/
def decValue (cs : List Char) : Nat :=
  cs.foldl (fun acc c => 10 * acc + (c.toNat - 48)) 0

/-! ## Call classes and sample data -/

/-- The process-status update `DeleteBuild` issues for a pending process. -/
def cancelUpdate (proc : Proc) : Call :=
  if proc.PPID ≠ 0 then .UpdateProcToStatusSkipped proc 0 else .UpdateProcToStatusKilled proc

/-- Calls that go to the work queue. -/
def Call.isQueue : Call → Bool
  | .EvictAtOnce _ => true
  | .ErrorAtOnce _ _ => true
  | .queueBuild _ _ => true
  | _ => false

/-- Calls that update the status of a process. -/
def Call.isProcUpdate : Call → Bool
  | .UpdateProcToStatusSkipped _ _ => true
  | .UpdateProcToStatusKilled _ => true
  | _ => false

/-- Calls that update the status of a build. -/
def Call.isBuildUpdate : Call → Bool
  | .UpdateToStatusKilled _ => true
  | .UpdateToStatusPending _ _ => true
  | .UpdateToStatusDeclined _ _ => true
  | .UpdateToStatusError _ _ => true
  | _ => false

/-- Calls that publish an event. -/
def Call.isPublish : Call → Bool
  | .publishToTopic _ _ => true
  | _ => false

/-- A process row with the given ID, parent and status, owned by build 70. -/
def mkProc (id ppid : Int) (st : Status) : Proc :=
  { ID := id, BuildID := 70, PPID := ppid, Name := "step", State := st, ExitCode := 0 }

/-- Build number 7 (row ID 70) of branch `main` in the given status. -/
def mkBuild (st : Status) : Build :=
  { ID := 70, Number := 7, Parent := 0, Status := st, Branch := "main", Event := "push",
    Deploy := "", Enqueued := 900, Started := 0, Finished := 0, Error := "", Reviewer := "",
    Procs := ⟨[]⟩ }

/-- A store holding build 7 in the given status with the given processes. -/
def mkWorld (st : Status) (procs : List Proc) : World :=
  { builds := [mkBuild st], procs := procs, calls := [] }

/-- A request for build 7 in which every collaborator succeeds. -/
def sampleEnv : Env :=
  { number := (7, none)
    login := "alice"
    repoFullName := "octocat/hello"
    query := []
    host := "ci.example.com"
    clock := fun _ => 1000
    kinds := ⟨"push", "pull_request", "tag", "deployment"⟩
    fault := fun _ => none
    GetBuildNumberErr := fun _ => none
    ProcListErr := fun _ => none
    GetUserErr := none
    ConfigsForBuild := fun _ => .ok []
    Netrc := .ok "machine"
    Refresher := none
    GetBuildLastBefore := fun _ _ => none
    SecretListBuild := fun _ => []
    RegistryList := []
    Environ := none
    ProcBuilderBuild := fun _ => .ok []
    SetBuildStepsOnBuild := fun b _ => b }

/-- The process list of the cancel scenario: a running root and its pending child. -/
def scenarioProcs : List Proc :=
  [mkProc 1 0 .Running, mkProc 2 1 .Pending]

/-- A request for build 7 in which the store fails to list the processes of a build
once its status is `Killed`; every other collaborator succeeds. -/
def refetchFailEnv : Env :=
  { sampleEnv with
    ProcListErr := fun b => if b.Status = .Killed then some "connection lost" else none }

/-- Calls to `store.CreateBuild`. -/
def Call.isCreateBuild : Call → Bool
  | .CreateBuild _ => true
  | _ => false

/-- Calls to the pipeline builder. -/
def Call.isBuild : Call → Bool
  | .Build _ => true
  | _ => false

/-- The build parameters a call hands to the pipeline builder, if it is such a call. -/
def Call.builderEnvs : Call → Option (List (String × String))
  | .Build b => some b.Envs
  | _ => none

/-- The reserved query parameter names of `PostBuild`. -/
def reserved (k : String) : Prop :=
  k = "fork" ∨ k = "event" ∨ k = "deploy_to"

instance (k : String) : Decidable (reserved k) := by
  unfold reserved
  infer_instance

/-- A restart request for build 7 with query `FOO=a` while the global environment
defines `FOO` as `g`; every collaborator succeeds. -/
def overrideEnv : Env :=
  { sampleEnv with
    query := [("FOO", "a", [])]
    Environ := some [("FOO", "g")] }

/-- A restart request for build 7 with query `event=tag&FOO=a&fork=true`. -/
def queryEnv : Env :=
  { sampleEnv with
    query := [("event", "tag", []), ("FOO", "a", ["b"]), ("fork", "true", [])] }

/-- A restart request for build 7 whose pipeline config does not compile. -/
def compileFailEnv : Env :=
  { sampleEnv with ProcBuilderBuild := fun _ => .error "yaml: line 3" }

/-- A message about a private repository. -/
def secretMsg : Message :=
  { Data := "build 3 of acme/secret", Labels := [("repo", "acme/secret"), ("private", "true")] }

/-- A message about a public repository. -/
def publicMsg : Message :=
  { Data := "build 9 of acme/site", Labels := [("repo", "acme/site"), ("private", "false")] }

/-- The evict set in the words of the spec: the IDs, as strings and in list order, of
the processes with parent-ID 0 and status `Pending`. -/
def evictSet (procs : List Proc) : List String :=
  (procs.filter (fun p => p.PPID = 0 ∧ p.State = .Pending)).map (fun p => Sprint p.ID)

/-- The cancel set in the words of the spec: the IDs, as strings and in list order, of
the processes with parent-ID 0 and status `Running`. -/
def cancelSet (procs : List Proc) : List String :=
  (procs.filter (fun p => p.PPID = 0 ∧ p.State = .Running)).map (fun p => Sprint p.ID)

/-! ## Theorems -/

/-! ### Rendering of IDs is injective -/

theorem decValue_append_single (cs : List Char) (c : Char) :
    decValue (cs ++ [c]) = 10 * decValue cs + (c.toNat - 48) := by
  simp [decValue, List.foldl_append]

theorem digitChar_toNat (d : Nat) (h : d < 10) : (Nat.digitChar d).toNat - 48 = d := by
  interval_cases d <;> rfl

theorem digitChar_ne_minus (d : Nat) (h : d < 10) : Nat.digitChar d ≠ '-' := by
  interval_cases d <;> decide

theorem toDigitsCore_acc (fuel : Nat) : ∀ (n : Nat) (ds : List Char),
    Nat.toDigitsCore 10 fuel n ds = Nat.toDigitsCore 10 fuel n [] ++ ds := by
  induction fuel with
  | zero => intro n ds; simp [Nat.toDigitsCore]
  | succ f ih =>
    intro n ds
    simp only [Nat.toDigitsCore]
    split
    · simp
    · rw [ih (n / 10) (Nat.digitChar (n % 10) :: ds), ih (n / 10) [Nat.digitChar (n % 10)]]
      simp

theorem toDigitsCore_value (fuel : Nat) : ∀ (n : Nat), n < fuel →
    decValue (Nat.toDigitsCore 10 fuel n []) = n := by
  induction fuel with
  | zero => intro n h; omega
  | succ f ih =>
    intro n h
    simp only [Nat.toDigitsCore]
    split
    · have : n < 10 := by omega
      simp [decValue, digitChar_toNat _ (Nat.mod_lt n (by norm_num))]
      omega
    · rw [toDigitsCore_acc, decValue_append_single, ih (n / 10) (by omega),
        digitChar_toNat _ (Nat.mod_lt n (by norm_num))]
      omega

theorem toDigitsCore_no_minus (fuel : Nat) : ∀ (n : Nat),
    '-' ∉ Nat.toDigitsCore 10 fuel n [] := by
  induction fuel with
  | zero => intro n; simp [Nat.toDigitsCore]
  | succ f ih =>
    intro n
    simp only [Nat.toDigitsCore]
    have hd := digitChar_ne_minus (n % 10) (Nat.mod_lt n (by norm_num))
    split
    · simp; exact fun h => hd h.symm
    · rw [toDigitsCore_acc]
      simp only [List.mem_append, List.mem_singleton, not_or]
      exact ⟨ih _, fun h => hd h.symm⟩

theorem natRepr_injective : Function.Injective Nat.repr := by
  intro a b h
  have h1 : Nat.toDigits 10 a = Nat.toDigits 10 b := by
    simp only [Nat.repr, List.asString] at h
    exact congrArg String.data h
  have ha := toDigitsCore_value (a + 1) a (by omega)
  have hb := toDigitsCore_value (b + 1) b (by omega)
  simp only [Nat.toDigits] at h1
  rw [h1] at ha
  omega

theorem natRepr_no_minus (n : Nat) : '-' ∉ (Nat.repr n).data := by
  simp only [Nat.repr, List.asString, Nat.toDigits]
  exact toDigitsCore_no_minus _ _

theorem Sprint_injective : Function.Injective Sprint := by
  intro a b h
  cases a with
  | ofNat m =>
    cases b with
    | ofNat k =>
      have : Nat.repr m = Nat.repr k := h
      rw [natRepr_injective this]
    | negSucc k =>
      exfalso
      have h1 : Nat.repr m = "-" ++ Nat.repr (k + 1) := h
      have h2 := natRepr_no_minus m
      rw [h1] at h2
      exact h2 (by simp)
  | negSucc m =>
    cases b with
    | ofNat k =>
      exfalso
      have h1 : "-" ++ Nat.repr (m + 1) = Nat.repr k := h
      have h2 := natRepr_no_minus k
      rw [← h1] at h2
      exact h2 (by simp)
    | negSucc k =>
      have h1 : "-" ++ Nat.repr (m + 1) = "-" ++ Nat.repr (k + 1) := h
      have h2 : Nat.repr (m + 1) = Nat.repr (k + 1) := by
        have := congrArg String.data h1
        simp only [String.data_append, List.append_cancel_left_eq] at this
        exact String.ext this
      have := natRepr_injective h2
      have : m = k := by omega
      rw [this]

/-! ### The cancellation cascade -/

@[simp] theorem log_calls (w : World) (c : Call) : (w.log c).calls = w.calls ++ [c] := rfl

@[simp] theorem log_builds (w : World) (c : Call) : (w.log c).builds = w.builds := rfl

@[simp] theorem log_procs (w : World) (c : Call) : (w.log c).procs = w.procs := rfl

@[simp] theorem putProc_calls (w : World) (p : Proc) : (w.putProc p).calls = w.calls := rfl

@[simp] theorem putProc_builds (w : World) (p : Proc) : (w.putProc p).builds = w.builds := rfl

@[simp] theorem putBuild_calls (w : World) (b : Build) : (w.putBuild b).calls = w.calls := rfl

@[simp] theorem putBuild_procs (w : World) (b : Build) : (w.putBuild b).procs = w.procs := rfl

theorem classify_foldl (procs : List Proc) : ∀ acc : List String × List String,
    procs.foldl
      (fun acc proc =>
        if proc.PPID ≠ 0 then acc
        else
          let acc1 :=
            if proc.State = .Running then (acc.1 ++ [Sprint proc.ID], acc.2) else acc
          if proc.State = .Pending then (acc1.1, acc1.2 ++ [Sprint proc.ID]) else acc1)
      acc = (acc.1 ++ cancelSet procs, acc.2 ++ evictSet procs) := by
  induction procs with
  | nil => intro acc; simp [cancelSet, evictSet]
  | cons p ps ih =>
    intro acc
    rw [List.foldl_cons, ih]
    by_cases hpp : p.PPID = 0
    · cases hst : p.State <;>
        simp [cancelSet, evictSet, List.filter_cons, hpp, hst]
    · simp [cancelSet, evictSet, List.filter_cons, hpp]

/-- The loop of `DeleteBuild` computes the cancel set and the evict set of the spec. -/
theorem classify_eq (procs : List Proc) : classify procs = (cancelSet procs, evictSet procs) := by
  unfold classify
  rw [classify_foldl]
  simp

theorem cancelProc_calls (env : Env) (w : World) (p : Proc) :
    (cancelProc env w p).calls =
      w.calls ++ (if p.State = .Pending then [cancelUpdate p] else []) := by
  unfold cancelProc cancelUpdate UpdateProcToStatusSkipped UpdateProcToStatusKilled
  by_cases h1 : p.State = .Pending
  · by_cases h2 : p.PPID = 0
    · simp only [h1, h2]
      cases env.fault (.UpdateProcToStatusKilled p) <;> simp [h2]
    · simp only [h1, h2]
      cases env.fault (.UpdateProcToStatusSkipped p 0) <;> simp [h2]
  · simp [h1]

theorem cancelProc_builds (env : Env) (w : World) (p : Proc) :
    (cancelProc env w p).builds = w.builds := by
  unfold cancelProc UpdateProcToStatusSkipped UpdateProcToStatusKilled
  by_cases h1 : p.State = .Pending
  · by_cases h2 : p.PPID = 0
    · simp only [h1, h2]
      cases env.fault (.UpdateProcToStatusKilled p) <;> simp [h2]
    · simp only [h1, h2]
      cases env.fault (.UpdateProcToStatusSkipped p 0) <;> simp [h2]
  · simp [h1]

theorem cancelProcs_calls (env : Env) (procs : List Proc) : ∀ w : World,
    (cancelProcs env w procs).calls =
      w.calls ++ (procs.filter (fun p => p.State = .Pending)).map cancelUpdate := by
  induction procs with
  | nil => intro w; simp [cancelProcs]
  | cons p ps ih =>
    intro w
    have := ih (cancelProc env w p)
    simp only [cancelProcs, List.foldl_cons] at this ⊢
    rw [this, cancelProc_calls]
    by_cases h1 : p.State = .Pending <;> simp [List.filter_cons, h1]

theorem cancelProcs_builds (env : Env) (procs : List Proc) : ∀ w : World,
    (cancelProcs env w procs).builds = w.builds := by
  induction procs with
  | nil => intro w; simp [cancelProcs]
  | cons p ps ih =>
    intro w
    have := ih (cancelProc env w p)
    simp only [cancelProcs, List.foldl_cons] at this ⊢
    rw [this, cancelProc_builds]

theorem DeleteBuild_accepted (env : Env) (w : World) (build : Build) (procs : List Proc)
    (hb : GetBuildNumber env w env.number.1 = .ok build)
    (hp : ProcList env w build = .ok procs)
    (hs : build.Status = .Running ∨ build.Status = .Pending) :
    DeleteBuild env w = cancelCascade env w build procs := by
  unfold DeleteBuild
  rw [hb]
  simp only [hp]
  rcases hs with hs | hs <;> simp [hs]

/-- The calls of the cascade: three queue calls, the process updates, the build update
and, last, at most one `Cancelled` publish. -/
theorem cancelCascade_calls (env : Env) (w : World) (build : Build) (procs : List Proc) :
    ∃ tail, (cancelCascade env w build procs).2.calls =
        w.calls ++ [.EvictAtOnce (evictSet procs), .ErrorAtOnce (evictSet procs) .ErrCancel,
          .ErrorAtOnce (cancelSet procs) .ErrCancel] ++
          (procs.filter (fun p => p.State = .Pending)).map cancelUpdate ++
          [.UpdateToStatusKilled build] ++ tail ∧
      (tail = [] ∨ ∃ b, tail = [.publishToTopic b .Cancelled]) := by
  unfold cancelCascade UpdateToStatusKilled
  cases hf : env.fault (.UpdateToStatusKilled build) with
  | some err =>
    exact ⟨[], by simp [cancelProcs_calls, cancelQueue, classify_eq], Or.inl rfl⟩
  | none =>
    by_cases hs : build.Status = .Pending
    · simp only [hs, if_true]
      cases hp : ProcList env _ _ with
      | error err =>
        exact ⟨[], by simp [cancelProcs_calls, cancelQueue, classify_eq], Or.inl rfl⟩
      | ok procs1 =>
        refine ⟨[.publishToTopic
          { ({ build with Status := .Killed } : Build) with Procs := Tree procs1 } .Cancelled],
          ?_, Or.inr ⟨_, rfl⟩⟩
        simp [cancelProcs_calls, cancelQueue, classify_eq]
    · simp only [hs, if_false]
      exact ⟨[], by simp [cancelProcs_calls, cancelQueue, classify_eq], Or.inl rfl⟩

/-- C1: for a build whose status is neither `Running` nor `Pending`, `DeleteBuild`
answers with an error code and leaves the world as it was (no queue call, no process
or build update, no publish), answering `400` once the process list was read; for a
build in `Running` or `Pending` the guard hands over to the cancellation cascade,
whose first calls are the three queue calls. -/
theorem DeleteBuild_guard (env : Env) (w : World) (build : Build)
    (hb : GetBuildNumber env w env.number.1 = .ok build) :
    (build.Status ≠ .Running ∧ build.Status ≠ .Pending →
      400 ≤ (DeleteBuild env w).1.code ∧ (DeleteBuild env w).2 = w ∧
      ∀ procs, ProcList env w build = .ok procs →
        (DeleteBuild env w).1 =
          .String 400 "Cannot cancel a non-running or non-pending build") ∧
    (build.Status = .Running ∨ build.Status = .Pending →
      ∀ procs, ProcList env w build = .ok procs →
        DeleteBuild env w = cancelCascade env w build procs ∧
        ∃ rest, (DeleteBuild env w).2.calls =
          w.calls ++ [.EvictAtOnce (classify procs).2,
            .ErrorAtOnce (classify procs).2 .ErrCancel,
            .ErrorAtOnce (classify procs).1 .ErrCancel] ++ rest) := by
  constructor
  · intro hs
    unfold DeleteBuild
    rw [hb]
    cases hp : ProcList env w build with
    | error err => simp [hp, Response.code]
    | ok procs => simp [hp, hs, Response.code]
  · intro hs procs hp
    refine ⟨DeleteBuild_accepted env w build procs hb hp hs, ?_⟩
    rw [DeleteBuild_accepted env w build procs hb hp hs, classify_eq]
    obtain ⟨tail, h, _⟩ := cancelCascade_calls env w build procs
    exact ⟨(procs.filter (fun p => p.State = .Pending)).map cancelUpdate ++
      ([.UpdateToStatusKilled build] ++ tail), by rw [h]; simp only [List.append_assoc]⟩

/-- C1 witness: build 7 in status `Success` is found, and cancelling it changes
nothing. -/
theorem DeleteBuild_guard_witness :
    GetBuildNumber sampleEnv (mkWorld .Success scenarioProcs) sampleEnv.number.1 =
        .ok (mkBuild .Success) ∧
      (DeleteBuild sampleEnv (mkWorld .Success scenarioProcs)).2 =
        mkWorld .Success scenarioProcs :=
  ⟨rfl, ((DeleteBuild_guard sampleEnv (mkWorld .Success scenarioProcs) (mkBuild .Success)
    rfl).1 ⟨by decide, by decide⟩).2.1⟩

/-- C2: an accepted cancel sends the queue exactly three calls, in the order
`EvictAtOnce(E)`, `ErrorAtOnce(E, Cancel)`, `ErrorAtOnce(C, Cancel)`, and they are the
first calls it makes; `E` and `C` are the evict and cancel sets of the spec (root
processes in `Pending`, respectively `Running`, as ID strings in list order). When the
process IDs are pairwise distinct, `E` and `C` are disjoint and hold the ID of no
process with a non-zero parent-ID. -/
theorem DeleteBuild_queue_calls (env : Env) (w : World) (build : Build) (procs : List Proc)
    (hb : GetBuildNumber env w env.number.1 = .ok build)
    (hp : ProcList env w build = .ok procs)
    (hs : build.Status = .Running ∨ build.Status = .Pending) :
    (DeleteBuild env w).2.calls.filter Call.isQueue =
        w.calls.filter Call.isQueue ++
          [.EvictAtOnce (evictSet procs), .ErrorAtOnce (evictSet procs) .ErrCancel,
            .ErrorAtOnce (cancelSet procs) .ErrCancel] ∧
      (∃ rest, (DeleteBuild env w).2.calls =
        w.calls ++ [.EvictAtOnce (evictSet procs), .ErrorAtOnce (evictSet procs) .ErrCancel,
          .ErrorAtOnce (cancelSet procs) .ErrCancel] ++ rest) ∧
      ((procs.map (fun p => p.ID)).Nodup →
        List.Disjoint (evictSet procs) (cancelSet procs) ∧
        ∀ p ∈ procs, p.PPID ≠ 0 →
          Sprint p.ID ∉ evictSet procs ∧ Sprint p.ID ∉ cancelSet procs) := by
  rw [DeleteBuild_accepted env w build procs hb hp hs]
  obtain ⟨tail, h, ht⟩ := cancelCascade_calls env w build procs
  refine ⟨?_, ⟨(procs.filter (fun p => p.State = .Pending)).map cancelUpdate ++
      ([.UpdateToStatusKilled build] ++ tail), by rw [h]; simp only [List.append_assoc]⟩, ?_⟩
  · rw [h]
    have hupd : ((procs.filter (fun p => p.State = .Pending)).map cancelUpdate).filter
        Call.isQueue = [] := by
      rw [List.filter_eq_nil_iff]
      intro c hc
      obtain ⟨p, _, rfl⟩ := List.mem_map.1 hc
      unfold cancelUpdate
      split <;> simp [Call.isQueue]
    have htail : tail.filter Call.isQueue = [] := by
      rcases ht with rfl | ⟨b, rfl⟩ <;> simp [Call.isQueue]
    simp [List.filter_append, hupd, htail, Call.isQueue]
  · intro hnd
    have hinj : ∀ p ∈ procs, ∀ q ∈ procs, Sprint p.ID = Sprint q.ID → p = q := by
      intro p hp q hq hpq
      exact List.inj_on_of_nodup_map hnd hp hq (Sprint_injective hpq)
    constructor
    · intro s hE hC
      obtain ⟨p, hp1, rfl⟩ := List.mem_map.1 hE
      obtain ⟨q, hq1, hq2⟩ := List.mem_map.1 hC
      have hp2 := List.mem_filter.1 hp1
      have hq3 := List.mem_filter.1 hq1
      have hpq := hinj q hq3.1 p hp2.1 hq2
      subst hpq
      simp at hp2 hq3
      rw [hp2.2.2] at hq3
      exact absurd hq3.2.2 (by decide)
    · intro p hpm hpp
      constructor
      · intro hE
        obtain ⟨q, hq1, hq2⟩ := List.mem_map.1 hE
        have hq3 := List.mem_filter.1 hq1
        have hpq := hinj q hq3.1 p hpm hq2
        subst hpq
        simp at hq3
        exact hpp hq3.2.1
      · intro hC
        obtain ⟨q, hq1, hq2⟩ := List.mem_map.1 hC
        have hq3 := List.mem_filter.1 hq1
        have hpq := hinj q hq3.1 p hpm hq2
        subst hpq
        simp at hq3
        exact hpp hq3.2.1

/-- C2 witness: the scenario of the spec, a running build whose processes are a running
root with ID 1 and its pending child with ID 2, gives `E = []` and `C = ["1"]`. -/
theorem DeleteBuild_queue_calls_witness :
    (GetBuildNumber sampleEnv (mkWorld .Running scenarioProcs) sampleEnv.number.1 =
        .ok (mkBuild .Running) ∧
      ProcList sampleEnv (mkWorld .Running scenarioProcs) (mkBuild .Running) =
        .ok scenarioProcs ∧
      (scenarioProcs.map (fun p => p.ID)).Nodup) ∧
    evictSet scenarioProcs = [] ∧ cancelSet scenarioProcs = ["1"] ∧
    (DeleteBuild sampleEnv (mkWorld .Running scenarioProcs)).2.calls.filter Call.isQueue =
      [.EvictAtOnce [], .ErrorAtOnce [] .ErrCancel, .ErrorAtOnce ["1"] .ErrCancel] ∧
    List.Disjoint (evictSet scenarioProcs) (cancelSet scenarioProcs) :=
  ⟨⟨rfl, rfl, by decide⟩, rfl, rfl,
    (DeleteBuild_queue_calls sampleEnv (mkWorld .Running scenarioProcs) (mkBuild .Running)
      scenarioProcs rfl rfl (Or.inl rfl)).1,
    ((DeleteBuild_queue_calls sampleEnv (mkWorld .Running scenarioProcs) (mkBuild .Running)
      scenarioProcs rfl rfl (Or.inl rfl)).2.2 (by decide)).1⟩

/-! ### Status updates of the cascade -/

/-- The world in which `DeleteBuild` updates the build: after the queue calls and the
process updates. -/
theorem cancelCascade_procs (env : Env) (w : World) (build : Build) (procs : List Proc) :
    (cancelCascade env w build procs).2.procs =
      (cancelProcs env (cancelQueue w procs) procs).procs := by
  unfold cancelCascade UpdateToStatusKilled
  cases env.fault (.UpdateToStatusKilled build) with
  | some err => simp
  | none =>
    by_cases hs : build.Status = .Pending
    · simp only [hs, if_true]
      cases ProcList env _ _ <;> simp
    · simp [hs]

theorem cancelCascade_builds (env : Env) (w : World) (build : Build) (procs : List Proc)
    (hf : env.fault (.UpdateToStatusKilled build) = none) :
    (cancelCascade env w build procs).2.builds =
      w.builds.map (fun q => if q.ID = build.ID then { build with Status := .Killed } else q) := by
  unfold cancelCascade UpdateToStatusKilled
  simp only [hf]
  by_cases hs : build.Status = .Pending
  · simp only [hs, if_true]
    cases ProcList env _ _ <;>
      simp [World.putBuild, cancelProcs_builds, cancelQueue]
  · simp [hs, World.putBuild, cancelProcs_builds, cancelQueue]

/-- C3: in an accepted cancel, whatever calls fail, the process-status updates issued
are exactly one per process that was `Pending`, in list order: `Skipped` for a non-zero
parent-ID, `Killed` for parent-ID 0; no other process is updated; and exactly one
build-status update is issued, to `Killed`, for a `Pending` and for a `Running` build
alike. When that update succeeds the stored row of the build has status `Killed`. -/
theorem DeleteBuild_status_updates (env : Env) (w : World) (build : Build)
    (procs : List Proc)
    (hb : GetBuildNumber env w env.number.1 = .ok build)
    (hp : ProcList env w build = .ok procs)
    (hs : build.Status = .Running ∨ build.Status = .Pending) :
    (DeleteBuild env w).2.calls.filter Call.isProcUpdate =
        w.calls.filter Call.isProcUpdate ++
          (procs.filter (fun p => p.State = .Pending)).map
            (fun p => if p.PPID ≠ 0 then Call.UpdateProcToStatusSkipped p 0
              else Call.UpdateProcToStatusKilled p) ∧
      (DeleteBuild env w).2.calls.filter Call.isBuildUpdate =
        w.calls.filter Call.isBuildUpdate ++ [.UpdateToStatusKilled build] ∧
      (env.fault (.UpdateToStatusKilled build) = none →
        ∀ b ∈ (DeleteBuild env w).2.builds, b.ID = build.ID → b.Status = .Killed) := by
  rw [DeleteBuild_accepted env w build procs hb hp hs]
  obtain ⟨tail, h, ht⟩ := cancelCascade_calls env w build procs
  have hfun : (fun p : Proc => if p.PPID ≠ 0 then Call.UpdateProcToStatusSkipped p 0
      else Call.UpdateProcToStatusKilled p) = cancelUpdate := rfl
  rw [hfun]
  have hupd : ∀ l : List Proc, (l.map cancelUpdate).filter Call.isProcUpdate =
      l.map cancelUpdate := by
    intro l
    rw [List.filter_eq_self]
    intro c hc
    obtain ⟨p, _, rfl⟩ := List.mem_map.1 hc
    unfold cancelUpdate
    split <;> simp [Call.isProcUpdate]
  have hupd2 : ∀ l : List Proc, (l.map cancelUpdate).filter Call.isBuildUpdate = [] := by
    intro l
    rw [List.filter_eq_nil_iff]
    intro c hc
    obtain ⟨p, _, rfl⟩ := List.mem_map.1 hc
    unfold cancelUpdate
    split <;> simp [Call.isBuildUpdate]
  refine ⟨?_, ?_, ?_⟩
  · rw [h]
    rcases ht with rfl | ⟨b, rfl⟩ <;>
      simp [List.filter_append, hupd, Call.isProcUpdate]
  · rw [h]
    rcases ht with rfl | ⟨b, rfl⟩ <;>
      simp [List.filter_append, hupd2, Call.isBuildUpdate]
  · intro hf b hbm hid
    rw [cancelCascade_builds env w build procs hf] at hbm
    obtain ⟨q, _, rfl⟩ := List.mem_map.1 hbm
    by_cases hq : q.ID = build.ID
    · simp [hq]
    · simp only [hq, if_false] at hid

/-- C3 witness: in the scenario of the spec the pending child 2 is updated to
`Skipped`, the running root 1 is not updated, and the build is updated to `Killed`. -/
theorem DeleteBuild_status_updates_witness :
    (GetBuildNumber sampleEnv (mkWorld .Running scenarioProcs) sampleEnv.number.1 =
        .ok (mkBuild .Running) ∧
      ProcList sampleEnv (mkWorld .Running scenarioProcs) (mkBuild .Running) =
        .ok scenarioProcs) ∧
    (DeleteBuild sampleEnv (mkWorld .Running scenarioProcs)).2.calls.filter
        Call.isProcUpdate = [.UpdateProcToStatusSkipped (mkProc 2 1 .Pending) 0] ∧
    (DeleteBuild sampleEnv (mkWorld .Running scenarioProcs)).2.calls.filter
        Call.isBuildUpdate = [.UpdateToStatusKilled (mkBuild .Running)] :=
  ⟨⟨rfl, rfl⟩,
    (DeleteBuild_status_updates sampleEnv (mkWorld .Running scenarioProcs)
      (mkBuild .Running) scenarioProcs rfl rfl (Or.inl rfl)).1,
    (DeleteBuild_status_updates sampleEnv (mkWorld .Running scenarioProcs)
      (mkBuild .Running) scenarioProcs rfl rfl (Or.inl rfl)).2.1⟩

theorem cancelProc_procs (env : Env) (w : World) (p : Proc)
    (hf : ∀ c, c.isProcUpdate = true → env.fault c = none) :
    (cancelProc env w p).procs =
      w.procs.map (fun q =>
        if p.State = .Pending ∧ q.ID = p.ID then
          { p with State := if p.PPID ≠ 0 then Status.Skipped else Status.Killed }
        else q) := by
  unfold cancelProc UpdateProcToStatusSkipped UpdateProcToStatusKilled
  by_cases h1 : p.State = .Pending
  · by_cases h2 : p.PPID = 0
    · simp [h1, h2, hf (.UpdateProcToStatusKilled p) rfl, World.putProc]
    · simp [h1, h2, hf (.UpdateProcToStatusSkipped p 0) rfl, World.putProc]
  · simp [h1]

/-- Every row after the process updates stems from a row before them, with the same ID;
it is unchanged or not `Pending`, and it is not `Pending` when a pending process of the
list carried its ID. -/
theorem cancelProcs_rows (env : Env) (hf : ∀ c, c.isProcUpdate = true → env.fault c = none)
    (ps : List Proc) : ∀ w : World, ∀ r ∈ (cancelProcs env w ps).procs,
      ∃ q ∈ w.procs, r.ID = q.ID ∧ (r = q ∨ r.State ≠ .Pending) ∧
        ((∃ p ∈ ps, p.State = .Pending ∧ p.ID = q.ID) → r.State ≠ .Pending) := by
  induction ps with
  | nil =>
    intro w r hr
    exact ⟨r, hr, rfl, Or.inl rfl, by simp⟩
  | cons p ps ih =>
    intro w r hr
    have hr1 : r ∈ (cancelProcs env (cancelProc env w p) ps).procs := by
      simpa [cancelProcs] using hr
    obtain ⟨q1, hq1, hid1, hsame1, hpend1⟩ := ih (cancelProc env w p) r hr1
    rw [cancelProc_procs env w p hf] at hq1
    obtain ⟨q, hq, rfl⟩ := List.mem_map.1 hq1
    by_cases hc : p.State = .Pending ∧ q.ID = p.ID
    · simp only [hc, and_self, if_true] at hid1 hsame1 hpend1
      have hnp : r.State ≠ .Pending := by
        rcases hsame1 with rfl | h
        · by_cases h2 : p.PPID = 0 <;> simp [h2]
        · exact h
      exact ⟨q, hq, by rw [hid1]; exact hc.2.symm, Or.inr hnp, fun _ => hnp⟩
    · simp only [hc, if_false] at hid1 hsame1 hpend1
      refine ⟨q, hq, hid1, hsame1, ?_⟩
      rintro ⟨p0, hp0, hst0, hid0⟩
      rcases List.mem_cons.1 hp0 with rfl | hp0
      · exact absurd ⟨hst0, hid0.symm⟩ hc
      · exact hpend1 ⟨p0, hp0, hst0, hid0⟩

/-- C4 (amended): after an accepted cancel in which the process-status updates succeed,
no process of the build is left in status `Pending`. -/
theorem DeleteBuild_no_pending (env : Env) (w : World) (build : Build) (procs : List Proc)
    (hb : GetBuildNumber env w env.number.1 = .ok build)
    (hp : ProcList env w build = .ok procs)
    (hs : build.Status = .Running ∨ build.Status = .Pending)
    (hf : ∀ c, c.isProcUpdate = true → env.fault c = none) :
    ∀ p ∈ (DeleteBuild env w).2.procs, p.BuildID = build.ID → p.State ≠ .Pending := by
  intro r hr hbid
  rw [DeleteBuild_accepted env w build procs hb hp hs, cancelCascade_procs] at hr
  obtain ⟨q, hq, _, hsame, hpend⟩ := cancelProcs_rows env hf procs (cancelQueue w procs) r hr
  have hq1 : q ∈ w.procs := hq
  have hprocs : procs = w.procs.filter (fun p => p.BuildID = build.ID) := by
    unfold ProcList at hp
    cases hE : env.ProcListErr build with
    | some err => simp [hE] at hp
    | none =>
      simp only [hE] at hp
      exact (Except.ok.inj hp).symm
  rcases hsame with rfl | h
  · by_cases hst : r.State = .Pending
    · apply hpend
      refine ⟨r, ?_, hst, rfl⟩
      rw [hprocs]
      exact List.mem_filter.2 ⟨hq1, by simpa using hbid⟩
    · exact hst
  · exact h

/-- C4 witness: cancelling a pending build with a pending root and a pending child
leaves neither of them `Pending`. -/
theorem DeleteBuild_no_pending_witness :
    (GetBuildNumber sampleEnv (mkWorld .Pending [mkProc 1 0 .Pending, mkProc 2 1 .Pending])
        sampleEnv.number.1 = .ok (mkBuild .Pending) ∧
      ProcList sampleEnv (mkWorld .Pending [mkProc 1 0 .Pending, mkProc 2 1 .Pending])
        (mkBuild .Pending) = .ok [mkProc 1 0 .Pending, mkProc 2 1 .Pending]) ∧
    (DeleteBuild sampleEnv
        (mkWorld .Pending [mkProc 1 0 .Pending, mkProc 2 1 .Pending])).2.procs =
      [mkProc 1 0 .Killed, mkProc 2 1 .Skipped] ∧
    (mkProc 2 1 .Skipped).State ≠ .Pending :=
  ⟨⟨rfl, rfl⟩, rfl,
    DeleteBuild_no_pending sampleEnv
      (mkWorld .Pending [mkProc 1 0 .Pending, mkProc 2 1 .Pending]) (mkBuild .Pending)
      [mkProc 1 0 .Pending, mkProc 2 1 .Pending] rfl rfl (Or.inr rfl) (fun _ _ => rfl)
      (mkProc 2 1 .Skipped) (by decide) rfl⟩

/-- C4 counterexample: in the scenario of the spec every call succeeds and the cancel
is answered `204`, yet the stored root process 1 is still `Running` afterwards. -/
theorem DeleteBuild_running_remains :
    (DeleteBuild sampleEnv (mkWorld .Running scenarioProcs)).1 = .String 204 "" ∧
      (DeleteBuild sampleEnv (mkWorld .Running scenarioProcs)).2.procs =
        [mkProc 1 0 .Running, mkProc 2 1 .Skipped] ∧
      (mkProc 1 0 .Running).State = .Running :=
  ⟨rfl, rfl, rfl⟩

/-! ### The publish of the cascade -/

/-- C5 (amended): in an accepted cancel whose build-status update succeeds, a build
that was `Pending` and whose process list is fetched again without error gets exactly
one `Cancelled` event, carrying the build in status `Killed` with the tree of its
process rows as stored after the updates; when that fetch fails nothing is published
and the answer is `404`; for a build that was `Running` nothing is published. -/
theorem DeleteBuild_publish (env : Env) (w : World) (build : Build) (procs : List Proc)
    (hb : GetBuildNumber env w env.number.1 = .ok build)
    (hp : ProcList env w build = .ok procs)
    (hf : env.fault (.UpdateToStatusKilled build) = none) :
    (build.Status = .Pending → env.ProcListErr { build with Status := .Killed } = none →
      (DeleteBuild env w).2.calls.filter Call.isPublish =
        w.calls.filter Call.isPublish ++
          [.publishToTopic
            { build with
              Status := .Killed
              Procs := Tree ((DeleteBuild env w).2.procs.filter
                (fun p => p.BuildID = build.ID)) }
            .Cancelled]) ∧
    (build.Status = .Pending →
      ∀ err, env.ProcListErr { build with Status := .Killed } = some err →
        (DeleteBuild env w).2.calls.filter Call.isPublish = w.calls.filter Call.isPublish ∧
        (DeleteBuild env w).1 = .AbortWithError 404 err) ∧
    (build.Status = .Running →
      (DeleteBuild env w).2.calls.filter Call.isPublish = w.calls.filter Call.isPublish) := by
  have hupd : ∀ l : List Proc, (l.map cancelUpdate).filter Call.isPublish = [] := by
    intro l
    rw [List.filter_eq_nil_iff]
    intro c hc
    obtain ⟨p, _, rfl⟩ := List.mem_map.1 hc
    unfold cancelUpdate
    split <;> simp [Call.isPublish]
  refine ⟨?_, ?_, ?_⟩
  · intro hs hl
    rw [DeleteBuild_accepted env w build procs hb hp (Or.inr hs)]
    unfold cancelCascade UpdateToStatusKilled ProcList
    simp [hf, hs, hl, cancelProcs_calls, cancelQueue, List.filter_append, hupd,
      Call.isPublish]
  · intro hs err hl
    rw [DeleteBuild_accepted env w build procs hb hp (Or.inr hs)]
    unfold cancelCascade UpdateToStatusKilled ProcList
    simp [hf, hs, hl, cancelProcs_calls, cancelQueue, List.filter_append, hupd,
      Call.isPublish]
  · intro hs
    rw [DeleteBuild_accepted env w build procs hb hp (Or.inl hs)]
    unfold cancelCascade UpdateToStatusKilled
    simp [hf, hs, cancelProcs_calls, cancelQueue, List.filter_append, hupd,
      Call.isPublish]

/-- C5 witness: cancelling pending build 7 with one pending root publishes one
`Cancelled` event whose tree shows that root as `Killed`. -/
theorem DeleteBuild_publish_witness :
    (GetBuildNumber sampleEnv (mkWorld .Pending [mkProc 1 0 .Pending])
        sampleEnv.number.1 = .ok (mkBuild .Pending) ∧
      ProcList sampleEnv (mkWorld .Pending [mkProc 1 0 .Pending]) (mkBuild .Pending) =
        .ok [mkProc 1 0 .Pending] ∧
      sampleEnv.fault (.UpdateToStatusKilled (mkBuild .Pending)) = none) ∧
    (DeleteBuild sampleEnv (mkWorld .Pending [mkProc 1 0 .Pending])).2.calls.filter
        Call.isPublish =
      [.publishToTopic { mkBuild .Killed with Procs := Tree [mkProc 1 0 .Killed] }
        .Cancelled] :=
  ⟨⟨rfl, rfl, rfl⟩,
    (DeleteBuild_publish sampleEnv (mkWorld .Pending [mkProc 1 0 .Pending])
      (mkBuild .Pending) [mkProc 1 0 .Pending] rfl rfl rfl).1 rfl rfl⟩

/-- C5 counterexample: pending build 7 is cancelled, its status update succeeds, but
the second listing of its processes fails: the answer is `404` and the calls made hold
no publish. -/
theorem DeleteBuild_refetch_failure_publishes_nothing :
    GetBuildNumber refetchFailEnv (mkWorld .Pending [mkProc 1 0 .Pending])
        refetchFailEnv.number.1 = .ok (mkBuild .Pending) ∧
      refetchFailEnv.fault (.UpdateToStatusKilled (mkBuild .Pending)) = none ∧
      (DeleteBuild refetchFailEnv (mkWorld .Pending [mkProc 1 0 .Pending])).1 =
        .AbortWithError 404 "connection lost" ∧
      (DeleteBuild refetchFailEnv (mkWorld .Pending [mkProc 1 0 .Pending])).2.calls =
        [.EvictAtOnce ["1"], .ErrorAtOnce ["1"] .ErrCancel, .ErrorAtOnce [] .ErrCancel,
          .UpdateProcToStatusKilled (mkProc 1 0 .Pending),
          .UpdateToStatusKilled (mkBuild .Pending)] ∧
      (DeleteBuild refetchFailEnv (mkWorld .Pending [mkProc 1 0 .Pending])).2.builds =
        [mkBuild .Killed] :=
  ⟨rfl, rfl, rfl, rfl, rfl⟩

/-! ### Approve and decline -/

/-- Overwriting the row of the build that a lookup by number finds makes the same
lookup find the new row, provided the new row keeps the ID and the number. -/
theorem find_after_put (num : Int) (b b1 : Build) (hn : b1.Number = num)
    (hid : b1.ID = b.ID) :
    ∀ l : List Build, l.find? (fun q => q.Number = num) = some b →
      (l.map (fun q => if q.ID = b1.ID then b1 else q)).find? (fun q => q.Number = num) =
        some b1 := by
  intro l
  induction l with
  | nil => intro h; simp at h
  | cons q l ih =>
    intro h
    by_cases hq : q.Number = num
    · have hqb : q = b := by simpa [List.find?_cons, hq] using h
      subst hqb
      simp [List.find?_cons, hn, hid]
    · have h1 : l.find? (fun q => q.Number = num) = some b := by
        simpa [List.find?_cons, hq] using h
      by_cases hqi : q.ID = b1.ID
      · simp [List.find?_cons, hqi, hn]
      · simp only [List.map_cons, hqi, if_false, List.find?_cons, hq, decide_False]
        exact ih h1

theorem foldl_log_builds (f : BuildItem → Call) (items : List BuildItem) :
    ∀ w : World, (items.foldl (fun w item => w.log (f item)) w).builds = w.builds := by
  induction items with
  | nil => intro w; rfl
  | cons i is ih =>
    intro w
    rw [List.foldl_cons, ih]
    rfl

theorem approvalStatus_builds (env : Env) (build : Build) (items : List BuildItem)
    (w : World) : (approvalStatus env w build items).builds = w.builds :=
  foldl_log_builds _ items w

/-- The build rows after the dispatch part of `PostApproval`: untouched, or the row of
the build overwritten with its `Error` version. -/
theorem approvalDispatch_builds (env : Env) (w : World) (build : Build)
    (configs : List Config) (netrc : String) :
    (approvalDispatch env w build configs netrc).builds = w.builds ∨
      ∃ err, (approvalDispatch env w build configs netrc).builds =
        w.builds.map (fun q =>
          if q.ID = build.ID then { build with Status := .Error, Error := err } else q) := by
  unfold approvalDispatch
  simp only
  split
  · rename_i err _
    unfold UpdateToStatusError
    simp only
    split
    · exact Or.inl rfl
    · exact Or.inr ⟨err, rfl⟩
  · left
    rw [approvalStatus_builds]
    unfold ProcCreate
    simp only [log_builds]
    split <;> rfl

/-- The store lookup behind a successful `GetBuildNumber`. -/
theorem GetBuildNumber_find (env : Env) (w : World) (num : Int) (build : Build)
    (hb : GetBuildNumber env w num = .ok build) :
    w.builds.find? (fun q => q.Number = num) = some build := by
  unfold GetBuildNumber at hb
  cases hE : env.GetBuildNumberErr num with
  | some err => simp [hE] at hb
  | none =>
    simp only [hE] at hb
    cases hF : w.builds.find? (fun q => q.Number = num) with
    | none => simp [hF] at hb
    | some b =>
      simp only [hF] at hb
      rw [Except.ok.inj hb]

/-- An approve of a build number whose stored row is not `Blocked` fails and changes
nothing. -/
theorem PostApproval_rejects (env : Env) (w : World) (b : Build)
    (hfind : w.builds.find? (fun q => q.Number = env.number.1) = some b)
    (hs : b.Status ≠ .Blocked) :
    400 ≤ (PostApproval env w).1.code ∧ (PostApproval env w).2 = w := by
  unfold PostApproval GetBuildNumber
  cases env.GetBuildNumberErr env.number.1 with
  | some err => simp [Response.code]
  | none => simp [hfind, hs, Response.code]

/-- An approve of a `Blocked` build either is not answered `200`, or it stores and
returns the build in status `Pending` and goes on to the dispatch. -/
theorem PostApproval_blocked (env : Env) (w : World) (build : Build)
    (hb : GetBuildNumber env w env.number.1 = .ok build)
    (hs : build.Status = .Blocked) :
    (PostApproval env w).1.code ≠ 200 ∨
      ∃ configs netrc, PostApproval env w =
        (.JSON 200 { build with Status := .Pending, Reviewer := env.login, Error := "" },
          approvalDispatch env
            ((w.log (.UpdateToStatusPending build env.login)).putBuild
              { build with Status := .Pending, Reviewer := env.login, Error := "" })
            { build with Status := .Pending, Reviewer := env.login, Error := "" }
            configs netrc) := by
  unfold PostApproval
  rw [hb]
  simp only [hs, ne_eq, not_true_eq_false, if_false]
  cases hc : env.ConfigsForBuild build.ID with
  | error err => simp [Response.code]
  | ok configs =>
    cases hnet : env.Netrc with
    | error err => simp [Response.code]
    | ok netrc =>
      unfold UpdateToStatusPending
      cases hf : env.fault (.UpdateToStatusPending build env.login) with
      | some err => simp [Response.code]
      | none => exact Or.inr ⟨configs, netrc, rfl⟩

/-- C6: for a build that is not `Blocked`, `PostApproval` and `PostDecline` give the
same answer, `500` with a message ending in the current status, and leave the world as
it was (no build update, no forge notification, no publish, no dispatch). Hence after
an approve of a `Blocked` build was answered `200`, which stores and returns it as
`Pending`, every further approve of that build number is answered with an error and
changes nothing. -/
theorem approve_decline_guard (env : Env) (w : World) (build : Build)
    (hb : GetBuildNumber env w env.number.1 = .ok build) :
    (build.Status ≠ .Blocked →
      PostApproval env w =
        (.String 500 ("cannot decline a build with status " ++ build.Status.str), w) ∧
      PostDecline env w =
        (.String 500 ("cannot decline a build with status " ++ build.Status.str), w)) ∧
    (build.Status = .Blocked → (PostApproval env w).1.code = 200 →
      (PostApproval env w).1 =
        .JSON 200 { build with Status := .Pending, Reviewer := env.login, Error := "" } ∧
      ∀ env2 : Env, env2.number.1 = env.number.1 →
        400 ≤ (PostApproval env2 (PostApproval env w).2).1.code ∧
        (PostApproval env2 (PostApproval env w).2).2 = (PostApproval env w).2) := by
  constructor
  · intro hs
    unfold PostApproval PostDecline
    rw [hb]
    simp [hs]
  · intro hs h200
    have hfind := GetBuildNumber_find env w env.number.1 build hb
    have hnum : build.Number = env.number.1 := by
      simpa using List.find?_some hfind
    rcases PostApproval_blocked env w build hb hs with h | ⟨configs, netrc, h⟩
    · exact absurd h200 h
    · rw [h]
      refine ⟨rfl, ?_⟩
      intro env2 h2
      have hfind1 := find_after_put env.number.1 build
        { build with Status := .Pending, Reviewer := env.login, Error := "" } hnum rfl
        w.builds hfind
      rcases approvalDispatch_builds env
          ((w.log (.UpdateToStatusPending build env.login)).putBuild
            { build with Status := .Pending, Reviewer := env.login, Error := "" })
          { build with Status := .Pending, Reviewer := env.login, Error := "" }
          configs netrc with hd | ⟨err, hd⟩
      · apply PostApproval_rejects env2 _
          { build with Status := .Pending, Reviewer := env.login, Error := "" }
        · rw [h2]
          simp only [hd]
          exact hfind1
        · simp
      · apply PostApproval_rejects env2 _
          { build with Status := .Error, Reviewer := env.login, Error := err }
        · rw [h2]
          simp only [hd]
          exact find_after_put env.number.1
            { build with Status := .Pending, Reviewer := env.login, Error := "" }
            { build with Status := .Error, Reviewer := env.login, Error := err } hnum rfl
            _ hfind1
        · simp

/-- C6 witness: build 7 in status `Pending` is found and an approve of it is answered
`500` naming that status, with the world unchanged. -/
theorem approve_decline_guard_witness :
    GetBuildNumber sampleEnv (mkWorld .Pending []) sampleEnv.number.1 =
        .ok (mkBuild .Pending) ∧
      PostApproval sampleEnv (mkWorld .Pending []) =
        (.String 500 "cannot decline a build with status Pending", mkWorld .Pending []) :=
  ⟨rfl, ((approve_decline_guard sampleEnv (mkWorld .Pending []) (mkBuild .Pending)
    rfl).1 (by decide)).1⟩

/-! ### Restart -/

/-- C7: for a build in status `Declined` or `Blocked`, `PostBuild` answers with an
error code and leaves the world as it was, so `CreateBuild` is not called, no build
config or process is persisted and nothing is published or queued; once the request
was parsed and the repository owner found, the answer is `500` naming the status. -/
theorem PostBuild_guard (env : Env) (w : World) (build : Build)
    (hb : GetBuildNumber env w env.number.1 = .ok build)
    (hs : build.Status = .Declined ∨ build.Status = .Blocked) :
    400 ≤ (PostBuild env w).1.code ∧ (PostBuild env w).2 = w ∧
      (env.number.2 = none → env.GetUserErr = none →
        (PostBuild env w).1 =
          .String 500 ("cannot restart a build with status " ++ build.Status.str)) := by
  unfold PostBuild
  cases hn : env.number.2 with
  | some err => simp [Response.code]
  | none =>
    cases hu : env.GetUserErr with
    | some err => simp [Response.code]
    | none => simp [hb, hs, Response.code]

/-- C7 witness: build 7 in status `Declined` is found; its restart is answered `500`
naming the status and the store still holds that one build row. -/
theorem PostBuild_guard_witness :
    (GetBuildNumber sampleEnv (mkWorld .Declined []) sampleEnv.number.1 =
        .ok (mkBuild .Declined) ∧ (mkBuild .Declined).Status = .Declined) ∧
      PostBuild sampleEnv (mkWorld .Declined []) =
        (.String 500 "cannot restart a build with status Declined", mkWorld .Declined []) :=
  ⟨⟨rfl, rfl⟩,
    Prod.ext
      ((PostBuild_guard sampleEnv (mkWorld .Declined []) (mkBuild .Declined) rfl
        (Or.inl rfl)).2.2 rfl rfl)
      (PostBuild_guard sampleEnv (mkWorld .Declined []) (mkBuild .Declined) rfl
        (Or.inl rfl)).2.1⟩

theorem PostBuild_accepted (env : Env) (w : World) (build : Build)
    (hn : env.number.2 = none) (hu : env.GetUserErr = none)
    (hb : GetBuildNumber env w env.number.1 = .ok build)
    (hs : ¬(build.Status = .Declined ∨ build.Status = .Blocked)) :
    PostBuild env w = restartAccepted env w build env.number.1 := by
  unfold PostBuild
  simp [hn, hu, hb, hs]

theorem refreshToken_filter (env : Env) (w : World) (P : Call → Bool)
    (h1 : P .Refresh = false) (h2 : P .UpdateUser = false) :
    (refreshToken env w).calls.filter P = w.calls.filter P := by
  unfold refreshToken
  cases env.Refresher with
  | none => rfl
  | some ok => cases ok <;> simp [List.filter_append, h1, h2]

theorem refreshToken_builds (env : Env) (w : World) :
    (refreshToken env w).builds = w.builds := by
  unfold refreshToken
  cases env.Refresher with
  | none => rfl
  | some ok => cases ok <;> rfl

theorem persistBuildConfigs_filter (env : Env) (P : Call → Bool)
    (h : ∀ a b, P (.BuildConfigCreate a b) = false) (configs : List Config) (id : Int) :
    ∀ w : World, (persistBuildConfigs env w configs id).2.calls.filter P =
      w.calls.filter P := by
  induction configs with
  | nil => intro w; rfl
  | cons c cs ih =>
    intro w
    unfold persistBuildConfigs
    cases env.fault (.BuildConfigCreate c.ID id) with
    | some err => simp [List.filter_append, h]
    | none => simp only []; rw [ih]; simp [List.filter_append, h]

theorem persistBuildConfigs_builds (env : Env) (configs : List Config) (id : Int) :
    ∀ w : World, (persistBuildConfigs env w configs id).2.builds = w.builds := by
  induction configs with
  | nil => intro w; rfl
  | cons c cs ih =>
    intro w
    unfold persistBuildConfigs
    cases env.fault (.BuildConfigCreate c.ID id) with
    | some err => rfl
    | none => simp only []; rw [ih]; rfl

/-- What a successful `CreateBuild` leaves behind: one more call and one more row. -/
theorem CreateBuild_ok (env : Env) (w w2 : World) (r build1 : Build)
    (h : CreateBuild env w r = (.ok build1, w2)) :
    w2.calls = w.calls ++ [.CreateBuild r] ∧ w2.builds = w.builds ++ [build1] := by
  unfold CreateBuild at h
  cases hf : env.fault (.CreateBuild r) with
  | some err => simp [hf] at h
  | none =>
    simp only [hf, Prod.mk.injEq, Except.ok.injEq] at h
    obtain ⟨h1, h2⟩ := h
    subst h2
    subst h1
    exact ⟨rfl, rfl⟩

theorem CreateBuild_calls (env : Env) (w : World) (r : Build) :
    (CreateBuild env w r).2.calls = w.calls ++ [.CreateBuild r] := by
  unfold CreateBuild
  cases env.fault (.CreateBuild r) <;> rfl

theorem restartDispatch_filter (env : Env) (w : World) (build : Build)
    (configs : List Config) (netrc : String) (P : Call → Bool)
    (h1 : ∀ b, P (.Build b) = false) (h2 : ∀ t, P (.ProcCreate t) = false)
    (h3 : ∀ b e, P (.publishToTopic b e) = false) (h4 : ∀ b i, P (.queueBuild b i) = false) :
    (restartDispatch env w build configs netrc).2.calls.filter P = w.calls.filter P := by
  unfold restartDispatch ProcCreate
  simp only
  cases env.ProcBuilderBuild (restartBuilder env build configs netrc) with
  | error err => simp [List.filter_append, h1]
  | ok items =>
    simp only
    cases env.fault _ <;> simp [List.filter_append, h1, h2, h3, h4]

/-- The restart of an accepted build whose configs and netrc are available: the calls
up to and including `CreateBuild`. -/
theorem restartAccepted_createBuild (env : Env) (w : World) (build : Build) (num : Int)
    (configs : List Config) (netrc : String)
    (hc : env.ConfigsForBuild build.ID = .ok configs) (hnet : env.Netrc = .ok netrc) :
    (restartAccepted env w build num).2.calls.filter Call.isCreateBuild =
      w.calls.filter Call.isCreateBuild ++ [.CreateBuild (restartRecord env build num)] := by
  unfold restartAccepted
  simp only [hc, hnet]
  have hcalls := CreateBuild_calls env (refreshToken env w) (restartRecord env build num)
  cases hcr : CreateBuild env (refreshToken env w) (restartRecord env build num) with
  | mk res w2 =>
    rw [hcr] at hcalls
    simp only at hcalls
    have hw2 : w2.calls.filter Call.isCreateBuild =
        w.calls.filter Call.isCreateBuild ++ [.CreateBuild (restartRecord env build num)] := by
      rw [hcalls, List.filter_append, refreshToken_filter env w _ rfl rfl]
      rfl
    cases res with
    | error err => exact hw2
    | ok build1 =>
      simp only
      have hpf := persistBuildConfigs_filter env Call.isCreateBuild (fun _ _ => rfl)
        configs build1.ID w2
      cases hpe : persistBuildConfigs env w2 configs build1.ID with
      | mk res3 w3 =>
        rw [hpe] at hpf
        simp only at hpf
        cases res3 with
        | some err => simp only; rw [hpf, hw2]
        | none =>
          simp only
          rw [restartDispatch_filter env w3 build1 configs netrc _ (fun _ => rfl)
            (fun _ => rfl) (fun _ _ => rfl) (fun _ _ => rfl), hpf, hw2]

/-- C8: in an accepted restart of build number `n` that gets as far as creating the
build, exactly one record is handed to `CreateBuild`; it has ID 0, number 0, parent
`n`, status `Pending`, started 0, finished 0 and an empty error message. Its event kind
is the `event` query value when that is one of the four kinds push, pull, tag, deploy;
for any other supplied value, and when none is supplied, it is the event kind of the
original build. -/
theorem PostBuild_record (env : Env) (w : World) (build : Build) (configs : List Config)
    (netrc : String)
    (hn : env.number.2 = none) (hu : env.GetUserErr = none)
    (hb : GetBuildNumber env w env.number.1 = .ok build)
    (hs : ¬(build.Status = .Declined ∨ build.Status = .Blocked))
    (hc : env.ConfigsForBuild build.ID = .ok configs) (hnet : env.Netrc = .ok netrc) :
    (PostBuild env w).2.calls.filter Call.isCreateBuild =
        w.calls.filter Call.isCreateBuild ++
          [.CreateBuild (restartRecord env build env.number.1)] ∧
      (restartRecord env build env.number.1).ID = 0 ∧
      (restartRecord env build env.number.1).Number = 0 ∧
      (restartRecord env build env.number.1).Parent = env.number.1 ∧
      (restartRecord env build env.number.1).Parent = build.Number ∧
      (restartRecord env build env.number.1).Status = .Pending ∧
      (restartRecord env build env.number.1).Started = 0 ∧
      (restartRecord env build env.number.1).Finished = 0 ∧
      (restartRecord env build env.number.1).Error = "" ∧
      (∀ e, env.query.find? (fun e => e.1 = "event") = some e →
        (e.2.1 = env.kinds.EventPush ∨ e.2.1 = env.kinds.EventPull ∨
          e.2.1 = env.kinds.EventTag ∨ e.2.1 = env.kinds.EventDeploy) →
        (restartRecord env build env.number.1).Event = e.2.1) ∧
      (∀ e, env.query.find? (fun e => e.1 = "event") = some e →
        ¬(e.2.1 = env.kinds.EventPush ∨ e.2.1 = env.kinds.EventPull ∨
          e.2.1 = env.kinds.EventTag ∨ e.2.1 = env.kinds.EventDeploy) →
        (restartRecord env build env.number.1).Event = build.Event) ∧
      (env.query.find? (fun e => e.1 = "event") = none →
        (restartRecord env build env.number.1).Event = build.Event) := by
  have hnum : build.Number = env.number.1 := by
    simpa using List.find?_some (GetBuildNumber_find env w env.number.1 build hb)
  refine ⟨?_, rfl, rfl, rfl, hnum.symm, rfl, rfl, rfl, rfl, ?_, ?_, ?_⟩
  · rw [PostBuild_accepted env w build hn hu hb hs]
    exact restartAccepted_createBuild env w build env.number.1 configs netrc hc hnet
  · intro e he hk
    simp only [restartRecord, restartEvent, DefaultQuery, he, hk, if_true]
  · intro e he hk
    simp only [restartRecord, restartEvent, DefaultQuery, he, hk, if_false]
  · intro he
    simp only [restartRecord, restartEvent, DefaultQuery, he]
    split <;> rfl

/-- C8 witness: restarting build 7 (status `Success`, event `push`) with query
`event=tag` hands `CreateBuild` a record with parent 7 and event kind `tag`. -/
theorem PostBuild_record_witness :
    (queryEnv.number.2 = none ∧ queryEnv.GetUserErr = none ∧
      GetBuildNumber queryEnv (mkWorld .Success []) queryEnv.number.1 =
        .ok (mkBuild .Success) ∧
      ¬((mkBuild .Success).Status = .Declined ∨ (mkBuild .Success).Status = .Blocked) ∧
      queryEnv.ConfigsForBuild (mkBuild .Success).ID = .ok [] ∧
      queryEnv.Netrc = .ok "machine") ∧
    (PostBuild queryEnv (mkWorld .Success [])).2.calls.filter Call.isCreateBuild =
      [.CreateBuild
        { mkBuild .Pending with
          ID := 0, Number := 0, Parent := 7, Enqueued := 1000, Event := "tag" }] :=
  ⟨⟨rfl, rfl, rfl, by decide, rfl, rfl⟩,
    (PostBuild_record queryEnv (mkWorld .Success []) (mkBuild .Success) [] "machine"
      rfl rfl rfl (by decide) rfl rfl).1⟩

/-! ### Build parameters of a restart -/

theorem find_filter_ne (k k1 : String) (h : k1 ≠ k) : ∀ m : List (String × String),
    (m.filter (fun kv => kv.1 ≠ k)).find? (fun kv => kv.1 = k1) =
      m.find? (fun kv => kv.1 = k1) := by
  intro m
  induction m with
  | nil => rfl
  | cons x m ih =>
    by_cases hx : x.1 = k
    · have hx1 : ¬ x.1 = k1 := fun h1 => h (h1.symm.trans hx)
      have hf : (x :: m).filter (fun kv => kv.1 ≠ k) = m.filter (fun kv => kv.1 ≠ k) := by
        rw [List.filter_cons]
        simp [hx]
      have hg : (x :: m).find? (fun kv => kv.1 = k1) = m.find? (fun kv => kv.1 = k1) := by
        rw [List.find?_cons]
        simp [hx1]
      rw [hf, hg, ih]
    · have hf : (x :: m).filter (fun kv => kv.1 ≠ k) =
          x :: m.filter (fun kv => kv.1 ≠ k) := by
        rw [List.filter_cons]
        simp [hx]
      rw [hf, List.find?_cons, List.find?_cons, ih]

/-- Lookup after assignment on a Go map. -/
theorem mapGet_mapSet (m : List (String × String)) (k v k1 : String) :
    mapGet (mapSet m k v) k1 = if k1 = k then some v else mapGet m k1 := by
  unfold mapGet mapSet
  by_cases h : k1 = k
  · simp [List.find?_cons, h]
  · have h1 : ¬ k = k1 := fun e => h e.symm
    simp only [List.find?_cons, h1, decide_False, h, if_false]
    rw [find_filter_ne k k1 h]

theorem mapGet_foldl_globals (k : String) (gs : List (String × String)) :
    ∀ m : List (String × String),
      mapGet (gs.foldl (fun m g => mapSet m g.1 g.2) m) k =
        (mapGet (gs.foldl (fun m g => mapSet m g.1 g.2) []) k).or (mapGet m k) := by
  induction gs with
  | nil => intro m; simp [mapGet]
  | cons g gs ih =>
    intro m
    rw [List.foldl_cons, List.foldl_cons, ih (mapSet m g.1 g.2), ih (mapSet [] g.1 g.2)]
    cases mapGet (gs.foldl (fun m g => mapSet m g.1 g.2) []) k with
    | some v => simp
    | none =>
      simp only [Option.none_or, mapGet_mapSet]
      split
      · simp
      · simp [mapGet]

/-- The global environment is laid over the parameters: a global of the same name
wins, every other entry is kept. -/
theorem mapGet_globalEnvs (env : Env) (m : List (String × String)) (k : String) :
    mapGet (globalEnvs env m) k = (mapGet (globalEnvs env []) k).or (mapGet m k) := by
  unfold globalEnvs
  cases env.Environ with
  | none => simp [mapGet]
  | some gs => exact mapGet_foldl_globals k gs m

theorem mapGet_query_foldl (k : String) (q : List (String × String × List String))
    (hnd : (q.map (fun e => e.1)).Nodup) : ∀ m : List (String × String),
      mapGet
          (q.foldl
            (fun m e =>
              if e.1 = "fork" ∨ e.1 = "event" ∨ e.1 = "deploy_to" then m
              else mapSet m e.1 e.2.1)
            m) k =
        if reserved k then mapGet m k
        else
          match q.find? (fun e => e.1 = k) with
          | some e => some e.2.1
          | none => mapGet m k := by
  induction q with
  | nil => intro m; simp
  | cons e q ih =>
    intro m
    have hnd1 : (q.map (fun e => e.1)).Nodup := (List.nodup_cons.1 hnd).2
    have hnotin : e.1 ∉ q.map (fun e => e.1) := (List.nodup_cons.1 hnd).1
    rw [List.foldl_cons, ih hnd1]
    by_cases hr : reserved k
    · simp only [hr, if_true]
      by_cases he : e.1 = "fork" ∨ e.1 = "event" ∨ e.1 = "deploy_to"
      · simp [he]
      · have hne : ¬ k = e.1 := by
          intro h
          apply he
          rw [← h]
          exact hr
        simp [he, mapGet_mapSet, hne]
    · simp only [hr, if_false]
      by_cases hk : e.1 = k
      · have hnone : q.find? (fun e => e.1 = k) = none := by
          rw [List.find?_eq_none]
          intro x hx hxk
          apply hnotin
          rw [hk]
          exact List.mem_map.2 ⟨x, hx, by simpa using hxk⟩
        have hr1 : ¬(k = "fork" ∨ k = "event" ∨ k = "deploy_to") := hr
        simp [hnone, List.find?_cons, hk, hr1, mapGet_mapSet]
      · have hk1 : ¬ k = e.1 := fun h => hk h.symm
        simp only [List.find?_cons, hk, decide_False]
        by_cases he : e.1 = "fork" ∨ e.1 = "event" ∨ e.1 = "deploy_to"
        · simp [he]
        · simp [he, mapGet_mapSet, hk1]

/-- The query loop of `PostBuild`, read as a map: reserved names are absent, every
other name carries the first value the caller supplied for it. -/
theorem mapGet_queryParams (env : Env) (k : String)
    (hnd : (env.query.map (fun e => e.1)).Nodup) :
    mapGet (queryParams env) k =
      if reserved k then none
      else (env.query.find? (fun e => e.1 = k)).map (fun e => e.2.1) := by
  unfold queryParams
  rw [mapGet_query_foldl k env.query hnd []]
  by_cases hr : reserved k
  · simp [hr, mapGet]
  · simp only [hr, if_false]
    cases env.query.find? (fun e => e.1 = k) <;> simp [mapGet]

/-- A restart that created the build row and linked its configs continues with the
dispatch part. -/
theorem PostBuild_dispatch (env : Env) (w w2 w3 : World) (build build1 : Build)
    (configs : List Config) (netrc : String)
    (hn : env.number.2 = none) (hu : env.GetUserErr = none)
    (hb : GetBuildNumber env w env.number.1 = .ok build)
    (hs : ¬(build.Status = .Declined ∨ build.Status = .Blocked))
    (hc : env.ConfigsForBuild build.ID = .ok configs) (hnet : env.Netrc = .ok netrc)
    (hcr : CreateBuild env (refreshToken env w) (restartRecord env build env.number.1) =
      (.ok build1, w2))
    (hpe : persistBuildConfigs env w2 configs build1.ID = (none, w3)) :
    PostBuild env w = restartDispatch env w3 build1 configs netrc := by
  rw [PostBuild_accepted env w build hn hu hb hs]
  unfold restartAccepted
  simp only [hc, hnet, hcr, hpe]

/-- The calls between the start of such a restart and its dispatch part: none of them
is of a class that leaves out the token refresh, `CreateBuild` and the config links. -/
theorem restart_setup_filter (env : Env) (w w2 w3 : World) (r build1 : Build)
    (configs : List Config) (P : Call → Bool)
    (h1 : P .Refresh = false) (h2 : P .UpdateUser = false)
    (h3 : ∀ b, P (.CreateBuild b) = false) (h4 : ∀ a b, P (.BuildConfigCreate a b) = false)
    (hcr : CreateBuild env (refreshToken env w) r = (.ok build1, w2))
    (hpe : persistBuildConfigs env w2 configs build1.ID = (none, w3)) :
    w3.calls.filter P = w.calls.filter P := by
  have hp := persistBuildConfigs_filter env P h4 configs build1.ID w2
  rw [hpe] at hp
  simp only at hp
  rw [hp, (CreateBuild_ok env _ w2 r build1 hcr).1, List.filter_append,
    refreshToken_filter env w P h1 h2]
  simp [h3]

/-- C9 (amended): in a restart that reaches the pipeline builder, the builder is called
once, with build parameters in which a name defined by the global environment carries
the global value, a reserved name (`fork`, `event`, `deploy_to`) not so defined is
absent, and every other name the caller supplied carries the first value supplied for
it. -/
theorem PostBuild_params (env : Env) (w w2 w3 : World) (build build1 : Build)
    (configs : List Config) (netrc : String)
    (hn : env.number.2 = none) (hu : env.GetUserErr = none)
    (hb : GetBuildNumber env w env.number.1 = .ok build)
    (hs : ¬(build.Status = .Declined ∨ build.Status = .Blocked))
    (hc : env.ConfigsForBuild build.ID = .ok configs) (hnet : env.Netrc = .ok netrc)
    (hcr : CreateBuild env (refreshToken env w) (restartRecord env build env.number.1) =
      (.ok build1, w2))
    (hpe : persistBuildConfigs env w2 configs build1.ID = (none, w3))
    (hnd : (env.query.map (fun e => e.1)).Nodup) :
    (PostBuild env w).2.calls.filter Call.isBuild =
        w.calls.filter Call.isBuild ++ [.Build (restartBuilder env build1 configs netrc)] ∧
      ∀ k : String,
        (∀ v, mapGet (globalEnvs env []) k = some v →
          mapGet (restartBuilder env build1 configs netrc).Envs k = some v) ∧
        (mapGet (globalEnvs env []) k = none → reserved k →
          mapGet (restartBuilder env build1 configs netrc).Envs k = none) ∧
        (mapGet (globalEnvs env []) k = none → ¬ reserved k →
          ∀ e ∈ env.query, e.1 = k →
            mapGet (restartBuilder env build1 configs netrc).Envs k = some e.2.1) := by
  constructor
  · rw [PostBuild_dispatch env w w2 w3 build build1 configs netrc hn hu hb hs hc hnet hcr hpe]
    have hsetup := restart_setup_filter env w w2 w3 _ build1 configs Call.isBuild rfl rfl
      (fun _ => rfl) (fun _ _ => rfl) hcr hpe
    unfold restartDispatch ProcCreate
    simp only
    cases env.ProcBuilderBuild (restartBuilder env build1 configs netrc) with
    | error err => simp [List.filter_append, hsetup, Call.isBuild]
    | ok items =>
      simp only
      cases env.fault _ <;> simp [List.filter_append, hsetup, Call.isBuild]
  · intro k
    have hE : (restartBuilder env build1 configs netrc).Envs =
        globalEnvs env (queryParams env) := rfl
    rw [hE, mapGet_globalEnvs env (queryParams env) k, mapGet_queryParams env k hnd]
    refine ⟨?_, ?_, ?_⟩
    · intro v hv
      simp [hv]
    · intro hg hr
      simp [hg, hr]
    · intro hg hr e he hek
      have hfind : env.query.find? (fun e => e.1 = k) = some e := by
        cases hf : env.query.find? (fun e => e.1 = k) with
        | none =>
          rw [List.find?_eq_none] at hf
          exact absurd (by simpa using hek) (hf e he)
        | some e1 =>
          have h1 : e1.1 = k := by simpa using List.find?_some hf
          have hmem : e1 ∈ env.query := List.mem_of_find?_eq_some hf
          have : e1 = e := List.inj_on_of_nodup_map hnd hmem he (h1.trans hek.symm)
          rw [this]
      simp [hg, hr, hfind]

/-- C9 witness: restarting build 7 with query `event=tag&FOO=a&fork=true` and no global
environment hands the builder exactly the parameter `FOO=a`. -/
theorem PostBuild_params_witness :
    (queryEnv.number.2 = none ∧ queryEnv.GetUserErr = none ∧
      GetBuildNumber queryEnv (mkWorld .Success []) queryEnv.number.1 =
        .ok (mkBuild .Success) ∧
      (queryEnv.query.map (fun e => e.1)).Nodup) ∧
    (PostBuild queryEnv (mkWorld .Success [])).2.calls.filterMap Call.builderEnvs =
      [[("FOO", "a")]] ∧
    mapGet [("FOO", "a")] "FOO" = some "a" ∧ mapGet [("FOO", "a")] "fork" = none :=
  ⟨⟨rfl, rfl, rfl, by decide⟩, rfl,
    ((PostBuild_params queryEnv (mkWorld .Success []) _ _ (mkBuild .Success) _ [] "machine"
      rfl rfl rfl (by decide) rfl rfl rfl rfl (by decide)).2 "FOO").2.2 rfl (by decide)
      ("FOO", "a", ["b"]) (by decide) rfl,
    ((PostBuild_params queryEnv (mkWorld .Success []) _ _ (mkBuild .Success) _ [] "machine"
      rfl rfl rfl (by decide) rfl rfl rfl rfl (by decide)).2 "fork").2.1 rfl (by decide)⟩

/-- C9 counterexample: the caller supplies `FOO=a`, a non-reserved name, while the
global environment defines `FOO=g`; the builder is handed `FOO=g`, not the caller's
value. -/
theorem PostBuild_global_overrides_param :
    overrideEnv.query = [("FOO", "a", [])] ∧
      (PostBuild overrideEnv (mkWorld .Success [])).2.calls.filterMap Call.builderEnvs =
        [[("FOO", "g")]] ∧
      mapGet [("FOO", "g")] "FOO" = some "g" :=
  ⟨rfl, rfl, rfl⟩

/-! ### Failed dispatch of a restart -/

theorem restartDispatch_build_error (env : Env) (w : World) (build : Build)
    (configs : List Config) (netrc : String) (err : String)
    (he : env.ProcBuilderBuild (restartBuilder env build configs netrc) = .error err) :
    restartDispatch env w build configs netrc =
      (.JSON 500 (markError env build err),
        w.log (.Build (restartBuilder env build configs netrc))) := by
  unfold restartDispatch
  simp only [he]

theorem restartDispatch_create_error (env : Env) (w : World) (build : Build)
    (configs : List Config) (netrc : String) (items : List BuildItem) (err : String)
    (hi : env.ProcBuilderBuild (restartBuilder env build configs netrc) = .ok items)
    (hf : env.fault (.ProcCreate (env.SetBuildStepsOnBuild build items).Procs) = some err) :
    restartDispatch env w build configs netrc =
      (.JSON 500 (markError env (env.SetBuildStepsOnBuild build items) err),
        (w.log (.Build (restartBuilder env build configs netrc))).log
          (.ProcCreate (env.SetBuildStepsOnBuild build items).Procs)) := by
  unfold restartDispatch ProcCreate
  simp only [hi]
  have hcurr : (restartBuilder env build configs netrc).Curr = build := rfl
  simp only [hcurr, hf]

/-- C10: in a restart that created the new build row, when the pipeline builder fails,
or when it succeeds and the creation of the processes fails, the answer is `500` with
the build in status `Error`, the failure message as its error, and started and
finished both set to the clock reading taken at the failure (so started is at most
finished); the row created earlier is still the last row of the build table, and the
restart made no publish and no queue call. -/
theorem PostBuild_dispatch_failure (env : Env) (w w2 w3 : World) (build build1 : Build)
    (configs : List Config) (netrc : String)
    (hn : env.number.2 = none) (hu : env.GetUserErr = none)
    (hb : GetBuildNumber env w env.number.1 = .ok build)
    (hs : ¬(build.Status = .Declined ∨ build.Status = .Blocked))
    (hc : env.ConfigsForBuild build.ID = .ok configs) (hnet : env.Netrc = .ok netrc)
    (hcr : CreateBuild env (refreshToken env w) (restartRecord env build env.number.1) =
      (.ok build1, w2))
    (hpe : persistBuildConfigs env w2 configs build1.ID = (none, w3)) :
    ((∃ err, env.ProcBuilderBuild (restartBuilder env build1 configs netrc) = .error err) ∨
      (∃ items err,
        env.ProcBuilderBuild (restartBuilder env build1 configs netrc) = .ok items ∧
        env.fault (.ProcCreate (env.SetBuildStepsOnBuild build1 items).Procs) = some err)) →
    (∃ b err,
      (env.ProcBuilderBuild (restartBuilder env build1 configs netrc) = .error err ∨
        ∃ items,
          env.ProcBuilderBuild (restartBuilder env build1 configs netrc) = .ok items ∧
          env.fault (.ProcCreate (env.SetBuildStepsOnBuild build1 items).Procs) = some err) ∧
      (PostBuild env w).1 = .JSON 500 b ∧ b.Status = .Error ∧ b.Error = err ∧
      b.Started = env.clock 1 ∧ b.Finished = env.clock 1 ∧ b.Started ≤ b.Finished) ∧
    (PostBuild env w).2.builds = w.builds ++ [build1] ∧
    (PostBuild env w).2.calls.filter Call.isPublish = w.calls.filter Call.isPublish ∧
    (PostBuild env w).2.calls.filter Call.isQueue = w.calls.filter Call.isQueue := by
  intro hfail
  rw [PostBuild_dispatch env w w2 w3 build build1 configs netrc hn hu hb hs hc hnet hcr hpe]
  have hpub := restart_setup_filter env w w2 w3 _ build1 configs Call.isPublish rfl rfl
    (fun _ => rfl) (fun _ _ => rfl) hcr hpe
  have hque := restart_setup_filter env w w2 w3 _ build1 configs Call.isQueue rfl rfl
    (fun _ => rfl) (fun _ _ => rfl) hcr hpe
  have hbuilds : w3.builds = w.builds ++ [build1] := by
    have h3 := persistBuildConfigs_builds env configs build1.ID w2
    rw [hpe] at h3
    simp only at h3
    rw [h3, (CreateBuild_ok env _ w2 _ build1 hcr).2, refreshToken_builds]
  rcases hfail with ⟨err, he⟩ | ⟨items, err, hi, hf⟩
  · rw [restartDispatch_build_error env w3 build1 configs netrc err he]
    refine ⟨⟨markError env build1 err, err, Or.inl he, rfl, rfl, rfl, rfl, rfl,
      le_refl _⟩, ?_, ?_, ?_⟩
    · exact hbuilds
    · simp [List.filter_append, hpub, Call.isPublish]
    · simp [List.filter_append, hque, Call.isQueue]
  · rw [restartDispatch_create_error env w3 build1 configs netrc items err hi hf]
    refine ⟨⟨markError env (env.SetBuildStepsOnBuild build1 items) err, err,
      Or.inr ⟨items, hi, hf⟩, rfl, rfl, rfl, rfl, rfl, le_refl _⟩, ?_, ?_, ?_⟩
    · exact hbuilds
    · simp [List.filter_append, hpub, Call.isPublish]
    · simp [List.filter_append, hque, Call.isQueue]

/-- C10 witness: restarting build 7 when its config does not compile is answered `500`
with the new build in status `Error`, started and finished at the clock reading 1000;
the new row 71 (number 8, status `Pending`) is in the store. -/
theorem PostBuild_dispatch_failure_witness :
    (compileFailEnv.number.2 = none ∧ compileFailEnv.GetUserErr = none ∧
      GetBuildNumber compileFailEnv (mkWorld .Success []) compileFailEnv.number.1 =
        .ok (mkBuild .Success) ∧
      compileFailEnv.ProcBuilderBuild
        (restartBuilder compileFailEnv
          { mkBuild .Pending with ID := 71, Number := 8, Parent := 7, Enqueued := 1000 }
          [] "machine") = .error "yaml: line 3") ∧
    (PostBuild compileFailEnv (mkWorld .Success [])).1 =
      .JSON 500
        { mkBuild .Error with
          ID := 71, Number := 8, Parent := 7, Enqueued := 1000, Started := 1000,
          Finished := 1000, Error := "yaml: line 3" } ∧
    (PostBuild compileFailEnv (mkWorld .Success [])).2.builds =
      [mkBuild .Success,
        { mkBuild .Pending with ID := 71, Number := 8, Parent := 7, Enqueued := 1000 }] ∧
    (PostBuild compileFailEnv (mkWorld .Success [])).2.calls.filter Call.isPublish = [] :=
  ⟨⟨rfl, rfl, rfl, rfl⟩, rfl,
    (PostBuild_dispatch_failure compileFailEnv (mkWorld .Success []) _ _ (mkBuild .Success)
      { mkBuild .Pending with ID := 71, Number := 8, Parent := 7, Enqueued := 1000 }
      [] "machine" rfl rfl rfl (by decide) rfl rfl rfl rfl
      (Or.inl ⟨"yaml: line 3", rfl⟩)).2.1,
    (PostBuild_dispatch_failure compileFailEnv (mkWorld .Success []) _ _ (mkBuild .Success)
      { mkBuild .Pending with ID := 71, Number := 8, Parent := 7, Enqueued := 1000 }
      [] "machine" rfl rfl rfl (by decide) rfl rfl rfl rfl
      (Or.inl ⟨"yaml: line 3", rfl⟩)).2.2.1⟩

/-! ### Sequence IDs of the log stream -/

theorem wrapInt_eq (x : Int) (h1 : -9223372036854775808 ≤ x) (h2 : x < 9223372036854775808) :
    wrapInt x = x := by
  unfold wrapInt
  omega

theorem numbered_ids_increasing (bufs : List String) : ∀ k : Int,
    ((numbered k bufs).map (fun kb => kb.1)).Pairwise (fun a b => a < b) ∧
      ∀ kb ∈ numbered k bufs, k ≤ kb.1 := by
  induction bufs with
  | nil => intro k; simp [numbered]
  | cons b bs ih =>
    intro k
    obtain ⟨h1, h2⟩ := ih (k + 1)
    refine ⟨?_, ?_⟩
    · simp only [numbered, List.map_cons, List.pairwise_cons]
      refine ⟨?_, h1⟩
      intro a ha
      obtain ⟨kb, hkb, rfl⟩ := List.mem_map.1 ha
      have := h2 kb hkb
      omega
    · intro kb hkb
      simp only [numbered, List.mem_cons] at hkb
      rcases hkb with rfl | hkb
      · exact le_refl _
      · have := h2 kb hkb
        omega

/-- The main loop of the log stream from any state: the log frames it adds are the
received entries, numbered from the current `id`, that lie above `last`; the final
`id` is the current one plus the number of entries received. -/
theorem logLoop_frames (last : Int) (evs : List LogEvent) : ∀ (id : Int) (out : List Frame),
    1 ≤ id → id + (received evs).length < 9223372036854775808 →
      (logLoop last id out evs).1 = id + (received evs).length ∧
      (logLoop last id out evs).2.filterMap Frame.entryOf =
        out.filterMap Frame.entryOf ++
          (numbered id (received evs)).filter (fun kb => last < kb.1) := by
  induction evs with
  | nil => intro id out _ _; simp [logLoop, received, numbered]
  | cons e evs ih =>
    intro id out h1 h2
    cases e with
    | hour => simp [logLoop, received, numbered]
    | closeNotify => simp [logLoop, received, numbered]
    | ctxDone => simp [logLoop, received, numbered]
    | tick =>
      simp only [logLoop, received]
      obtain ⟨ha, hb⟩ := ih id (out ++ [.ping]) h1 (by simpa [received] using h2)
      refine ⟨ha, ?_⟩
      rw [hb]
      simp [Frame.entryOf]
    | recv r =>
      cases r with
      | none =>
        simp only [logLoop, received]
        exact ih id out h1 (by simpa [received] using h2)
      | some buf =>
        simp only [received, List.length_cons, Nat.cast_add, Nat.cast_one] at h2
        have hw : wrapInt (id + 1) = id + 1 := wrapInt_eq _ (by omega) (by omega)
        simp only [logLoop, received, hw, numbered, List.length_cons, Nat.cast_add,
          Nat.cast_one]
        obtain ⟨ha, hb⟩ := ih (id + 1)
          (if id > last then out ++ [.entry id buf] else out) (by omega) (by omega)
        refine ⟨by rw [ha]; omega, ?_⟩
        rw [hb]
        by_cases hl : last < id
        · simp [hl, List.filter_cons, Frame.entryOf]
        · simp [hl, List.filter_cons]

/-- C12: on one connection of the log stream, for every last-seen value `last` and
every run of the main loop that receives fewer than `2 ^ 63 - 1` entries, the `k`-th
entry received gets ID `k`; the log frames written are exactly those of the entries
with `k > last`, in order, each with its ID `k`; so the IDs written increase strictly,
exactly the entries with ID at most `last` are suppressed, and they consume an ID all
the same: the counter ends at the number of entries received plus one. -/
theorem logStream_ids (last : Int) (evs : List LogEvent)
    (hlen : (received evs).length < 9223372036854775807) :
    (logStream last evs).2.filterMap Frame.entryOf =
        (numbered 1 (received evs)).filter (fun kb => last < kb.1) ∧
      (logStream last evs).1 = 1 + (received evs).length ∧
      (((logStream last evs).2.filterMap Frame.entryOf).map (fun kb => kb.1)).Pairwise
        (fun a b => a < b) ∧
      (∀ kb ∈ numbered 1 (received evs),
        (kb ∈ (logStream last evs).2.filterMap Frame.entryOf ↔ last < kb.1)) := by
  have hlen1 : (1 : Int) + (received evs).length < 9223372036854775808 := by omega
  obtain ⟨ha, hb⟩ := logLoop_frames last evs 1 [] (le_refl _) hlen1
  have hframes : (logStream last evs).2.filterMap Frame.entryOf =
      (numbered 1 (received evs)).filter (fun kb => last < kb.1) := by
    unfold logStream
    rw [hb]
    simp
  refine ⟨hframes, ha, ?_, ?_⟩
  · rw [hframes]
    exact ((numbered_ids_increasing (received evs) 1).1).sublist
      ((List.filter_sublist _).map _)
  · intro kb hkb
    rw [hframes, List.mem_filter]
    simp [hkb]

/-- C12 witness: with `Last-Event-ID: 3` and five entries received, the frames written
are those with IDs 4 and 5 only, and the counter ends at 6. -/
theorem logStream_ids_witness :
    (received [.recv (some "e1"), .recv (some "e2"), .tick, .recv (some "e3"),
        .recv (some "e4"), .recv (some "e5")]).length < 9223372036854775807 ∧
      logStream 3 [.recv (some "e1"), .recv (some "e2"), .tick, .recv (some "e3"),
        .recv (some "e4"), .recv (some "e5")] =
        (6, [.ping, .entry 4 "e4", .entry 5 "e5"]) ∧
      (logStream 3 [.recv (some "e1"), .recv (some "e2"), .tick, .recv (some "e3"),
        .recv (some "e4"), .recv (some "e5")]).2.filterMap Frame.entryOf =
        [(4, "e4"), (5, "e5")] :=
  ⟨by decide, by decide,
    (logStream_ids 3 [.recv (some "e1"), .recv (some "e2"), .tick, .recv (some "e3"),
      .recv (some "e4"), .recv (some "e5")] (by decide)).1⟩

/-! ### Visibility filter of the event stream -/

theorem repoMap_foldl_mem (r : String) (repos : List String) : ∀ m : List String,
    r ∈ repos.foldl (fun m r => if r ∈ m then m else m ++ [r]) m ↔ r ∈ m ∨ r ∈ repos := by
  induction repos with
  | nil => intro m; simp
  | cons x xs ih =>
    intro m
    rw [List.foldl_cons, ih]
    by_cases hx : x ∈ m
    · simp only [hx, if_true, List.mem_cons]
      constructor
      · rintro (h | h)
        · exact Or.inl h
        · exact Or.inr (Or.inr h)
      · rintro (h | h | h)
        · exact Or.inl h
        · exact Or.inl (h ▸ hx)
        · exact Or.inr h
    · simp only [hx, if_false, List.mem_append, List.mem_cons, List.not_mem_nil, or_false]
      tauto

/-- The keys of the `repo` map are the repositories listed for the user. -/
theorem mem_repoMap (r : String) (repos : List String) :
    r ∈ repoMap (some repos) ↔ r ∈ repos := by
  unfold repoMap
  rw [repoMap_foldl_mem]
  simp

theorem eventLoop_recv (bufs : List String) : ∀ out : List Frame,
    eventLoop out (bufs.map (fun buf => StreamEvent.recv (some buf))) =
      out ++ bufs.map Frame.data := by
  induction bufs with
  | nil => intro out; simp [eventLoop]
  | cons b bs ih =>
    intro out
    simp only [List.map_cons, eventLoop]
    rw [ih]
    simp

/-- C13: on a connection of the event stream whose context is not cancelled, the
delivery callback hands a published message on if and only if its `repo` label is in
the caller's repository list or its `private` label is `"false"`; for an anonymous
caller that is exactly the messages labelled `private = "false"`; whatever the state of
the context, a message that is not labelled `private = "false"` and whose repository
is not in the list is not handed on; and the main loop writes one `data:` frame for
each message handed on, in order, and no other. -/
theorem eventStream_filter (user : Option (List String)) (m : Message) :
    (eventCallback (repoMap user) false m = some m.Data ↔
        ((∃ repos, user = some repos ∧ label m "repo" ∈ repos) ∨
          label m "private" = "false")) ∧
      (eventCallback (repoMap none) false m = some m.Data ↔ label m "private" = "false") ∧
      (∀ done, ¬((∃ repos, user = some repos ∧ label m "repo" ∈ repos) ∨
          label m "private" = "false") → eventCallback (repoMap user) done m = none) ∧
      (∀ msgs : List Message,
        eventLoop [] (deliver (repoMap user) msgs) =
          ((msgs.filter (fun m =>
            label m "repo" ∈ repoMap user ∨ label m "private" = "false")).map
            (fun m => Frame.data m.Data))) := by
  have hvis : (label m "repo" ∈ repoMap user ∨ label m "private" = "false") ↔
      ((∃ repos, user = some repos ∧ label m "repo" ∈ repos) ∨
        label m "private" = "false") := by
    cases user with
    | none => simp [repoMap]
    | some repos => simp [mem_repoMap]
  refine ⟨?_, ?_, ?_, ?_⟩
  · rw [← hvis]
    unfold eventCallback
    by_cases h : label m "repo" ∈ repoMap user ∨ label m "private" = "false"
    · simp [h]
    · simp [h]
  · unfold eventCallback
    by_cases h : label m "private" = "false"
    · simp [h, repoMap]
    · simp [h, repoMap]
  · intro done h
    rw [← hvis] at h
    unfold eventCallback
    simp [h]
  · intro msgs
    unfold deliver
    rw [eventLoop_recv]
    simp only [List.nil_append]
    induction msgs with
    | nil => rfl
    | cons x xs ih =>
      by_cases h : label x "repo" ∈ repoMap user ∨ label x "private" = "false"
      · simp only [List.filterMap_cons, eventCallback, h, if_true, List.filter_cons,
          decide_True, List.map_cons, Bool.false_eq_true, if_false]
        rw [ih]
      · simp only [List.filterMap_cons, eventCallback, h, if_false, List.filter_cons,
          decide_False]
        exact ih

/-- C13 witness: a caller who sees only `octocat/hello` is not handed the message of
the private repository `acme/secret`, and is handed the one of the public repository. -/
theorem eventStream_filter_witness :
    ¬((∃ repos, some ["octocat/hello"] = some repos ∧ label secretMsg "repo" ∈ repos) ∨
        label secretMsg "private" = "false") ∧
      eventCallback (repoMap (some ["octocat/hello"])) true secretMsg = none ∧
      eventCallback (repoMap (some ["octocat/hello"])) false secretMsg = none ∧
      eventCallback (repoMap (some ["octocat/hello"])) false publicMsg =
        some publicMsg.Data ∧
      eventLoop [] (deliver (repoMap (some ["octocat/hello"])) [secretMsg, publicMsg]) =
        [.data "build 9 of acme/site"] :=
  ⟨by
      rintro (⟨repos, h, hm⟩ | h)
      · cases h
        revert hm
        decide
      · revert h
        decide,
    (eventStream_filter (some ["octocat/hello"]) secretMsg).2.2.1 true (by
      rintro (⟨repos, h, hm⟩ | h)
      · cases h
        revert hm
        decide
      · revert h
        decide),
    by decide,
    (eventStream_filter (some ["octocat/hello"]) publicMsg).1.2 (Or.inr (by decide)),
    by decide⟩

/-! ### Decline -/

/-- C14 evaluation: declining blocked build 7, with every collaborator succeeding,
stores the build as `Declined`, but the build handed to the forge notifier and the
build in the `200` answer are the one read before the update, in status `Blocked`. -/
theorem PostDecline_reports_blocked :
    GetBuildNumber sampleEnv (mkWorld .Blocked []) sampleEnv.number.1 =
        .ok (mkBuild .Blocked) ∧
      (PostDecline sampleEnv (mkWorld .Blocked [])).1 = .JSON 200 (mkBuild .Blocked) ∧
      (PostDecline sampleEnv (mkWorld .Blocked [])).2.calls =
        [.UpdateToStatusDeclined (mkBuild .Blocked) "alice",
          .RemoteStatus (mkBuild .Blocked) "ci.example.com/octocat/hello/7" none] ∧
      (PostDecline sampleEnv (mkWorld .Blocked [])).2.builds =
        [{ mkBuild .Declined with Reviewer := "alice" }] :=
  ⟨rfl, rfl, rfl, rfl⟩

/-! ### A config the pipeline builder rejects -/

/-- An approve whose guard, config lookup, netrc and status update all succeed. -/
theorem PostApproval_ok (env : Env) (w : World) (build : Build) (configs : List Config)
    (netrc : String)
    (hb : GetBuildNumber env w env.number.1 = .ok build)
    (hs : build.Status = .Blocked)
    (hc : env.ConfigsForBuild build.ID = .ok configs) (hnet : env.Netrc = .ok netrc)
    (hf : env.fault (.UpdateToStatusPending build env.login) = none) :
    PostApproval env w =
      (.JSON 200 { build with Status := .Pending, Reviewer := env.login, Error := "" },
        approvalDispatch env
          ((w.log (.UpdateToStatusPending build env.login)).putBuild
            { build with Status := .Pending, Reviewer := env.login, Error := "" })
          { build with Status := .Pending, Reviewer := env.login, Error := "" }
          configs netrc) := by
  unfold PostApproval UpdateToStatusPending
  rw [hb]
  simp only [hs, ne_eq, not_true_eq_false, if_false, hc, hnet, hf]

/-- The dispatch part of `PostApproval` when the builder rejects the config. -/
theorem approvalDispatch_build_error (env : Env) (w : World) (build : Build)
    (configs : List Config) (netrc : String) (err : String)
    (he : env.ProcBuilderBuild (approvalBuilder env build configs netrc) = .error err) :
    approvalDispatch env w build configs netrc =
      (UpdateToStatusError env (w.log (.Build (approvalBuilder env build configs netrc)))
        build err).2 := by
  unfold approvalDispatch
  have hb : ({ Curr := build
               Last := env.GetBuildLastBefore build.Branch build.ID
               Netrc := netrc
               Secs := env.SecretListBuild build
               Regs := env.RegistryList
               Link := env.host
               Yamls := yamlsOf configs
               Envs := globalEnvs env [] } : ProcBuilder) =
      approvalBuilder env build configs netrc := rfl
  simp only [hb, he]

theorem UpdateToStatusError_calls (env : Env) (w : World) (build : Build) (err : String) :
    (UpdateToStatusError env w build err).2.calls =
      w.calls ++ [.UpdateToStatusError build err] := by
  unfold UpdateToStatusError
  cases env.fault (.UpdateToStatusError build err) <;> rfl

/-- C11 (amended): when the pipeline builder rejects the config, nothing is published
or queued. In a restart that created the new build row, `PostBuild` answers `500` with
the build marked `Error` and carrying the failure message. In an approve, `PostApproval`
has answered `200` with the build in status `Pending` before the builder ran; its
build-status updates are the one to `Pending` followed by one to `Error` with the
failure message, and when that update succeeds the stored row of the build is in
status `Error` with that message. -/
theorem compile_failure (env : Env) (w : World) (build : Build) (configs : List Config)
    (netrc : String) (err : String)
    (hb : GetBuildNumber env w env.number.1 = .ok build)
    (hc : env.ConfigsForBuild build.ID = .ok configs) (hnet : env.Netrc = .ok netrc) :
    (∀ (w2 w3 : World) (build1 : Build),
      env.number.2 = none → env.GetUserErr = none →
      ¬(build.Status = .Declined ∨ build.Status = .Blocked) →
      CreateBuild env (refreshToken env w) (restartRecord env build env.number.1) =
        (.ok build1, w2) →
      persistBuildConfigs env w2 configs build1.ID = (none, w3) →
      env.ProcBuilderBuild (restartBuilder env build1 configs netrc) = .error err →
        (PostBuild env w).1 = .JSON 500 (markError env build1 err) ∧
        (markError env build1 err).Status = .Error ∧
        (markError env build1 err).Error = err ∧
        (PostBuild env w).2.calls.filter Call.isPublish = w.calls.filter Call.isPublish ∧
        (PostBuild env w).2.calls.filter Call.isQueue = w.calls.filter Call.isQueue) ∧
    (build.Status = .Blocked →
      env.fault (.UpdateToStatusPending build env.login) = none →
      env.ProcBuilderBuild
        (approvalBuilder env
          { build with Status := .Pending, Reviewer := env.login, Error := "" }
          configs netrc) = .error err →
        (PostApproval env w).1 =
          .JSON 200 { build with Status := .Pending, Reviewer := env.login, Error := "" } ∧
        (PostApproval env w).2.calls.filter Call.isBuildUpdate =
          w.calls.filter Call.isBuildUpdate ++
            [.UpdateToStatusPending build env.login,
              .UpdateToStatusError
                { build with Status := .Pending, Reviewer := env.login, Error := "" } err] ∧
        (env.fault
            (.UpdateToStatusError
              { build with Status := .Pending, Reviewer := env.login, Error := "" } err) =
            none →
          ∀ b ∈ (PostApproval env w).2.builds, b.ID = build.ID →
            b.Status = .Error ∧ b.Error = err) ∧
        (PostApproval env w).2.calls.filter Call.isPublish = w.calls.filter Call.isPublish ∧
        (PostApproval env w).2.calls.filter Call.isQueue = w.calls.filter Call.isQueue) := by
  constructor
  · intro w2 w3 build1 hn hu hs hcr hpe he
    rw [PostBuild_dispatch env w w2 w3 build build1 configs netrc hn hu hb hs hc hnet hcr hpe,
      restartDispatch_build_error env w3 build1 configs netrc err he]
    have hpub := restart_setup_filter env w w2 w3 _ build1 configs Call.isPublish rfl rfl
      (fun _ => rfl) (fun _ _ => rfl) hcr hpe
    have hque := restart_setup_filter env w w2 w3 _ build1 configs Call.isQueue rfl rfl
      (fun _ => rfl) (fun _ _ => rfl) hcr hpe
    refine ⟨rfl, rfl, rfl, ?_, ?_⟩
    · simp [List.filter_append, hpub, Call.isPublish]
    · simp [List.filter_append, hque, Call.isQueue]
  · intro hs hf he
    rw [PostApproval_ok env w build configs netrc hb hs hc hnet hf,
      approvalDispatch_build_error env _ _ configs netrc err he]
    refine ⟨rfl, ?_, ?_, ?_, ?_⟩
    · simp [UpdateToStatusError_calls, List.filter_append, Call.isBuildUpdate]
    · intro hfe b hbm hid
      unfold UpdateToStatusError at hbm
      simp only [hfe, World.putBuild, log_builds, List.map_map] at hbm
      obtain ⟨q, _, rfl⟩ := List.mem_map.1 hbm
      by_cases hq : q.ID = build.ID
      · simp [hq]
      · simp [hq] at hid
    · simp [UpdateToStatusError_calls, List.filter_append, Call.isPublish]
    · simp [UpdateToStatusError_calls, List.filter_append, Call.isQueue]

/-- C11 witness: with a config that does not compile, restarting build 7 is answered
`500` with the new build in status `Error`, and approving blocked build 7 is answered
`200` while the stored row ends in status `Error`. -/
theorem compile_failure_witness :
    (GetBuildNumber compileFailEnv (mkWorld .Success []) compileFailEnv.number.1 =
        .ok (mkBuild .Success) ∧
      GetBuildNumber compileFailEnv (mkWorld .Blocked []) compileFailEnv.number.1 =
        .ok (mkBuild .Blocked)) ∧
    (PostBuild compileFailEnv (mkWorld .Success [])).1 =
      .JSON 500
        { mkBuild .Error with
          ID := 71, Number := 8, Parent := 7, Enqueued := 1000, Started := 1000,
          Finished := 1000, Error := "yaml: line 3" } ∧
    (PostApproval compileFailEnv (mkWorld .Blocked [])).2.calls.filter Call.isBuildUpdate =
      [.UpdateToStatusPending (mkBuild .Blocked) "alice",
        .UpdateToStatusError { mkBuild .Pending with Reviewer := "alice" }
          "yaml: line 3"] ∧
    (PostApproval compileFailEnv (mkWorld .Blocked [])).2.builds =
      [{ mkBuild .Error with Reviewer := "alice", Error := "yaml: line 3" }] :=
  ⟨⟨rfl, rfl⟩,
    ((compile_failure compileFailEnv (mkWorld .Success []) (mkBuild .Success) [] "machine"
      "yaml: line 3" rfl rfl rfl).1 _ _
      { mkBuild .Pending with ID := 71, Number := 8, Parent := 7, Enqueued := 1000 }
      rfl rfl (by decide) rfl rfl rfl).1,
    ((compile_failure compileFailEnv (mkWorld .Blocked []) (mkBuild .Blocked) [] "machine"
      "yaml: line 3" rfl rfl rfl).2 rfl rfl rfl).2.1,
    rfl⟩

/-- C11 counterexample: with a config that does not compile, the approve of blocked
build 7 returns the build in status `Pending`, not the `Error` build; and the restart
of build 7 makes no build-status update, so the row it created stays `Pending` in the
store. -/
theorem approve_returns_pending_restart_unpersisted :
    (PostApproval compileFailEnv (mkWorld .Blocked [])).1 =
        .JSON 200 { mkBuild .Pending with Reviewer := "alice" } ∧
      (PostBuild compileFailEnv (mkWorld .Success [])).2.calls.filter Call.isBuildUpdate =
        [] ∧
      (PostBuild compileFailEnv (mkWorld .Success [])).2.builds =
        [mkBuild .Success,
          { mkBuild .Pending with ID := 71, Number := 8, Parent := 7, Enqueued := 1000 }] :=
  ⟨rfl, rfl, rfl⟩

end Woodpecker
